import Mathlib

/-
Verification of the equery shared-query engine.

This file gives a shallow embedding of the core of the repository:
the ActiveQuery class (shared operation), the QueryObserver wrapper,
and the EqueryClient deduplication registry (src/core/Client.ts and the
Query module).  JavaScript asynchrony is modelled operationally: the
single-threaded event model is represented by explicit state-passing
functions, one per synchronous step.  The points where control returns
to the event loop (the awaited unit of work settling, a timer firing,
a queued microtask running) are separate step functions that a trace
invokes explicitly.  Callbacks are identified by numeric tokens and a
delivery is recorded by appending to a global log, so that
exactly-once claims become statements about the log.
-/

namespace Equery

/-- JavaScript runtime values, restricted to the shapes the engine
inspects: it only needs truthiness, the AbortError name check, and
JSON serialization of request bodies (flat objects suffice for the
bodies exercised here). -/
inductive JsVal
  | vNull
  | vUndefined
  | vBool (b : Bool)
  | vNum (n : Int)
  | vStr (s : String)
  | vErrObj (name msg : String)
  | vObj (fields : List (String × String))
deriving DecidableEq, Repr

/-- JavaScript truthiness for the modelled values. -/
def truthy : JsVal → Bool
  | .vNull => false
  | .vUndefined => false
  | .vBool b => b
  | .vNum n => n != 0
  | .vStr s => s != ""
  | .vErrObj _ _ => true
  | .vObj _ => true

/-- Model of the isAbortError helper: err is an object whose name
property is the string AbortError. -/
def isAbortError : JsVal → Bool
  | .vErrObj name _ => name == "AbortError"
  | .vObj fields => (fields.lookup "name") == some "AbortError"
  | _ => false

/-- Model of JSON.stringify on the modelled values (platform
primitive; not defined in the repository). -/
def jsonStringify : JsVal → String
  | .vNull => "null"
  | .vUndefined => "null"
  | .vBool b => cond b "true" "false"
  | .vNum n => toString n
  | .vStr s => "\"" ++ s ++ "\""
  | .vErrObj _ _ => "\x7b\x7d"
  | .vObj fields =>
      "\x7b" ++ String.intercalate ","
        (fields.map (fun p => "\"" ++ p.1 ++ "\":\"" ++ p.2 ++ "\"")) ++ "\x7d"

/-- The QueryResult record of src/core/types.ts. -/
structure QueryResult where
  data : JsVal
  error : JsVal
  isSuccess : Bool
  isError : Bool
  isCanceled : Bool
  isLoading : Bool
deriving DecidableEq, Repr

/-- The QueryConfig record of src/core/types.ts.  Absent properties are
none. -/
structure QueryConfig where
  enabled : Option Bool := none
  baseUrl : Option String := none
  queryKey : Option String := none
  method : Option String := none
  headers : List (String × String) := []
  body : Option JsVal := none
  timeout : Option Int := none
deriving DecidableEq, Repr

/-- A resolved endpoint: a URL string or a fetcher function (identified
by a token; the function body is external work supplied by the
environment when it settles). -/
inductive EndpointR
  | urlStr (s : String)
  | fn (fid : Nat)
deriving DecidableEq, Repr

/-- An endpoint argument as accepted by useFetch: a string, a fetcher,
or a FetcherDefinition carrying a key and a fetcher. -/
inductive EndpointU
  | urlStr (s : String)
  | fn (fid : Nat)
  | definition (key : String) (fid : Nat)
deriving DecidableEq, Repr

/-- A callback registered on an ActiveQuery list: a user callback, one
of the two relay closures installed by a QueryObserver constructor, or
the registry-removal closure installed by EqueryClient. -/
inductive Cb
  | user (u : Nat)
  | obsCompleteRelay (o : Nat)
  | obsErrorRelay (o : Nat)
  | registryRemove (k : String)
deriving DecidableEq, Repr

/-- State of one ActiveQuery instance.  hasController, sigAborted,
didTimeout, hasTimeoutTimer and pending model the AbortController, its
signal.aborted flag, and the per-execution locals of execute();
promiseValue is the value the stored promise resolves with (the
returned resultState); lazyKey is set when EqueryClient has replaced
execute with the lazy-registration wrapper. -/
structure AQ where
  endpoint : EndpointR
  config : QueryConfig
  resultState : QueryResult
  completeCbs : List Cb
  errorCbs : List Cb
  refCount : Int
  hasPromise : Bool
  promiseValue : Option QueryResult
  hasController : Bool
  sigAborted : Bool
  didTimeout : Bool
  hasTimeoutTimer : Bool
  pending : Bool
  lazyKey : Option String
deriving DecidableEq, Repr

/-- State of one QueryObserver. -/
structure Obs where
  qid : Nat
  canceled : Bool
  wrappedComplete : List Nat
  wrappedError : List Nat
deriving DecidableEq, Repr

/-- A queued microtask (a Promise.resolve().then continuation).
lateAQComplete reads the resultState at run time, matching the closure
in ActiveQuery.onComplete; the others carry the values their closures
captured at registration time. -/
inductive MTask
  | lateAQComplete (qid : Nat) (cb : Cb)
  | lateAQError (cb : Cb) (e : JsVal)
  | lateObsComplete (u : Nat) (r : QueryResult)
  | lateObsError (u : Nat) (e : JsVal)
  | cancelFanout (cbs : List Nat) (r : QueryResult)
deriving DecidableEq, Repr

/-- A recorded invocation of a user callback. -/
inductive Delivery
  | done (u : Nat) (r : QueryResult)
  | fail (u : Nat) (e : JsVal)
deriving DecidableEq, Repr

/-- Global system state: all queries and observers ever created
(indexed by position), the client dedup registry, the microtask queue,
the log of user-callback deliveries, and the list of started
unit-of-work invocations (one entry per endpoint call). -/
structure Sys where
  queries : List AQ
  observers : List Obs
  registry : List (String × Nat)
  microtasks : List MTask
  log : List Delivery
  invocations : List Nat
deriving DecidableEq, Repr

/-- The initial resultState set by the ActiveQuery constructor. -/
def initResult : QueryResult :=
  { data := .vNull, error := .vNull, isSuccess := false, isError := false,
    isCanceled := false, isLoading := false }

/-- The canceled result a QueryObserver synthesizes. -/
def canceledResult : QueryResult :=
  { data := .vNull, error := .vNull, isSuccess := false, isError := false,
    isCanceled := true, isLoading := false }

instance : Inhabited AQ :=
  ⟨{ endpoint := .fn 0, config := {}, resultState := initResult,
     completeCbs := [], errorCbs := [], refCount := 0, hasPromise := false,
     promiseValue := none, hasController := false, sigAborted := false,
     didTimeout := false, hasTimeoutTimer := false, pending := false,
     lazyKey := none }⟩

instance : Inhabited Obs := ⟨{ qid := 0, canceled := false, wrappedComplete := [], wrappedError := [] }⟩

def sysInit : Sys :=
  { queries := [], observers := [], registry := [], microtasks := [],
    log := [], invocations := [] }

def getQ (sys : Sys) (i : Nat) : AQ := sys.queries.getD i default

def setQ (sys : Sys) (i : Nat) (q : AQ) : Sys :=
  { sys with queries := sys.queries.set i q }

def updQ (sys : Sys) (i : Nat) (f : AQ → AQ) : Sys := setQ sys i (f (getQ sys i))

def getObs (sys : Sys) (o : Nat) : Obs := sys.observers.getD o default

def setObs (sys : Sys) (o : Nat) (ob : Obs) : Sys :=
  { sys with observers := sys.observers.set o ob }

/-- Whether a positive numeric timeout is configured
(typeof timeoutMs is number and timeoutMs greater than 0). -/
def aqHasTimeout (q : AQ) : Bool :=
  match q.config.timeout with
  | some t => decide (0 < t)
  | none => false

/-- The timeout Error value built at the start of execute(). -/
def timeoutErrVal (q : AQ) : JsVal :=
  .vErrObj "Error" ("timeout of " ++ toString (q.config.timeout.getD 0) ++ "ms exceeded")

/-- Synchronous invocation of one completion callback with result r
(the body of the forEach in ActiveQuery.notifyComplete, and of a late
delivery).  A relay forwards to the wrapped observer callbacks unless
that observer is canceled; the registry-removal closure deletes the
dedup entry. -/
def deliverComplete (sys : Sys) (cb : Cb) (r : QueryResult) : Sys :=
  match cb with
  | .user u => { sys with log := sys.log ++ [.done u r] }
  | .obsCompleteRelay o =>
      let ob := getObs sys o
      if ob.canceled then sys
      else { sys with log := sys.log ++ ob.wrappedComplete.map (fun u => .done u r) }
  | .obsErrorRelay _ => sys
  | .registryRemove k => { sys with registry := sys.registry.filter (fun p => p.1 != k) }

/-- Synchronous invocation of one error callback with error e. -/
def deliverError (sys : Sys) (cb : Cb) (e : JsVal) : Sys :=
  match cb with
  | .user u => { sys with log := sys.log ++ [.fail u e] }
  | .obsErrorRelay o =>
      let ob := getObs sys o
      if ob.canceled then sys
      else { sys with log := sys.log ++ ob.wrappedError.map (fun u => .fail u e) }
  | _ => sys

/-- ActiveQuery.notifyComplete: invoke every completion callback with
the current resultState, then clear both callback lists. -/
def notifyComplete (sys : Sys) (qid : Nat) : Sys :=
  let q := getQ sys qid
  let sys1 := q.completeCbs.foldl (fun s cb => deliverComplete s cb q.resultState) sys
  updQ sys1 qid (fun q2 => { q2 with completeCbs := [], errorCbs := [] })

/-- ActiveQuery.notifyError: invoke every error callback (lists are not
cleared here). -/
def notifyError (sys : Sys) (qid : Nat) (e : JsVal) : Sys :=
  (getQ sys qid).errorCbs.foldl (fun s cb => deliverError s cb e) sys

/-- ActiveQuery.execute, up to the first await: early-return while
loading with a stored promise; otherwise allocate a fresh controller,
arm the timeout timer when configured, mark loading (clearing
isCanceled but nothing else), store a fresh promise, and start the
unit of work (recorded in invocations). -/
def aqExecute (sys : Sys) (qid : Nat) : Sys :=
  let q := getQ sys qid
  if q.resultState.isLoading && q.hasPromise then sys
  else
    let q1 : AQ :=
      { q with hasController := true, sigAborted := false, didTimeout := false,
               hasTimeoutTimer := aqHasTimeout q,
               resultState := { q.resultState with isLoading := true, isCanceled := false },
               hasPromise := true, promiseValue := none, pending := true }
    let sys1 := setQ sys qid q1
    { sys1 with invocations := sys1.invocations ++ [qid] }

/-- The catch block of the async body in ActiveQuery.execute: clear the
timer, drop isLoading, then classify the failure (timed-out flag
first, then abort-shaped or triggered token, else plain error), notify
error listeners in the error branches, and finally notify completion
listeners; the promise resolves with the final resultState. -/
def settleCatch (sys : Sys) (qid : Nat) (e : JsVal) : Sys :=
  let q0 := getQ sys qid
  let q := { q0 with hasTimeoutTimer := false }
  let rs0 := { q.resultState with isLoading := false }
  if q.didTimeout && aqHasTimeout q then
    let te := timeoutErrVal q
    let rs := { rs0 with isError := true, error := te }
    let sys1 := setQ sys qid { q with resultState := rs, pending := false, promiseValue := some rs }
    notifyComplete (notifyError sys1 qid te) qid
  else if isAbortError e || q.sigAborted then
    let rs := { rs0 with isCanceled := true }
    let sys1 := setQ sys qid { q with resultState := rs, pending := false, promiseValue := some rs }
    notifyComplete sys1 qid
  else
    let rs := { rs0 with isError := true, error := e }
    let sys1 := setQ sys qid { q with resultState := rs, pending := false, promiseValue := some rs }
    notifyComplete (notifyError sys1 qid e) qid

/-- The awaited unit of work resolves with value v: clear the timer;
if the signal was aborted meanwhile, re-raise into the catch block
(as the timeout error when the timed-out flag is set, else as a
generic Error); otherwise record success and notify completion
listeners. -/
def settleResolve (sys : Sys) (qid : Nat) (v : JsVal) : Sys :=
  let q := getQ sys qid
  if q.pending then
    let q1 := { q with hasTimeoutTimer := false }
    let sys1 := setQ sys qid q1
    if q1.sigAborted then
      if q1.didTimeout && aqHasTimeout q1 then settleCatch sys1 qid (timeoutErrVal q1)
      else settleCatch sys1 qid (.vErrObj "Error" "Aborted")
    else
      let rs := { q1.resultState with data := v, isSuccess := true, isLoading := false }
      let sys2 := setQ sys1 qid { q1 with resultState := rs, pending := false, promiseValue := some rs }
      notifyComplete sys2 qid
  else sys

/-- The awaited unit of work rejects with e: run the catch block. -/
def settleReject (sys : Sys) (qid : Nat) (e : JsVal) : Sys :=
  if (getQ sys qid).pending then settleCatch sys qid e else sys

/-- The timeout timer fires: set the timed-out flag and abort the
controller. -/
def timerFire (sys : Sys) (qid : Nat) : Sys :=
  let q := getQ sys qid
  if q.pending && q.hasTimeoutTimer then
    setQ sys qid { q with didTimeout := true, sigAborted := true, hasTimeoutTimer := false }
  else sys

/-- ActiveQuery.hardCancel: abort the controller when still loading. -/
def hardCancel (sys : Sys) (qid : Nat) : Sys :=
  let q := getQ sys qid
  if q.resultState.isLoading && q.hasController then
    setQ sys qid { q with sigAborted := true }
  else sys

def aqAddRef (sys : Sys) (qid : Nat) : Sys :=
  updQ sys qid (fun q => { q with refCount := q.refCount + 1 })

/-- ActiveQuery.removeRef: decrement, and hard-cancel when the count
reaches zero or below. -/
def aqRemoveRef (sys : Sys) (qid : Nat) : Sys :=
  let sys1 := updQ sys qid (fun q => { q with refCount := q.refCount - 1 })
  if (getQ sys1 qid).refCount ≤ 0 then hardCancel sys1 qid else sys1

/-- ActiveQuery.onComplete: always push; when already settled, also
schedule a deferred delivery of the (then-current) resultState. -/
def aqOnComplete (sys : Sys) (qid : Nat) (cb : Cb) : Sys :=
  let sys1 := updQ sys qid (fun q => { q with completeCbs := q.completeCbs ++ [cb] })
  let st := (getQ sys1 qid).resultState
  if !st.isLoading && (st.isSuccess || st.isError || st.isCanceled) then
    { sys1 with microtasks := sys1.microtasks ++ [.lateAQComplete qid cb] }
  else sys1

/-- ActiveQuery.onError: always push; when already settled with a
truthy error, schedule a deferred delivery of that error (captured at
registration time). -/
def aqOnError (sys : Sys) (qid : Nat) (cb : Cb) : Sys :=
  let sys1 := updQ sys qid (fun q => { q with errorCbs := q.errorCbs ++ [cb] })
  let st := (getQ sys1 qid).resultState
  if !st.isLoading && st.isError && truthy st.error then
    { sys1 with microtasks := sys1.microtasks ++ [.lateAQError cb st.error] }
  else sys1

/-- QueryObserver constructor: append a fresh observer, addRef, and
install the two relay closures on the ActiveQuery. -/
def newObserver (sys : Sys) (qid : Nat) : Sys × Nat :=
  let o := sys.observers.length
  let sys1 : Sys :=
    { sys with observers := sys.observers ++ [{ qid := qid, canceled := false, wrappedComplete := [], wrappedError := [] }] }
  let sys2 := aqAddRef sys1 qid
  let sys3 := aqOnComplete sys2 qid (.obsCompleteRelay o)
  (aqOnError sys3 qid (.obsErrorRelay o), o)

/-- ActiveQuery constructor: initial resultState, then execute when
enabled is not false. -/
def constructAQ (sys : Sys) (fe : EndpointR) (cfg : QueryConfig) : Sys × Nat :=
  let qid := sys.queries.length
  let q0 : AQ :=
    { endpoint := fe, config := cfg, resultState := initResult,
      completeCbs := [], errorCbs := [], refCount := 0, hasPromise := false,
      promiseValue := none, hasController := false, sigAborted := false,
      didTimeout := false, hasTimeoutTimer := false, pending := false,
      lazyKey := none }
  let sys1 : Sys := { sys with queries := sys.queries ++ [q0] }
  (if cfg.enabled.getD true then aqExecute sys1 qid else sys1, qid)

/-- Unwrap a FetcherDefinition to its fn, as in both useFetch variants. -/
def unwrapEndpoint : EndpointU → EndpointR
  | .urlStr s => .urlStr s
  | .fn fid => .fn fid
  | .definition _ fid => .fn fid

/-- The definition key carried by a FetcherDefinition argument. -/
def defKeyOf : EndpointU → Option String
  | .definition k _ => some k
  | _ => none

/-- Shallow config merge with shallow header merge (client config
spread first, call config second). -/
def mergeHeaders (a b : List (String × String)) : List (String × String) :=
  a.filter (fun p => (b.lookup p.1).isNone) ++ b

def mergeConfig (a b : QueryConfig) : QueryConfig :=
  { enabled := (b.enabled.orElse (fun _ => a.enabled)),
    baseUrl := (b.baseUrl.orElse (fun _ => a.baseUrl)),
    queryKey := (b.queryKey.orElse (fun _ => a.queryKey)),
    method := (b.method.orElse (fun _ => a.method)),
    headers := mergeHeaders a.headers b.headers,
    body := (b.body.orElse (fun _ => a.body)),
    timeout := (b.timeout.orElse (fun _ => a.timeout)) }

/-- Truthiness of an optional string (JS falsiness of absent or empty). -/
def truthyStr : Option String → Bool
  | some s => s != ""
  | none => false

/-- Apply the baseUrl prefix to string endpoints, normalizing to one
slash. -/
def finalizeEndpoint (merged : QueryConfig) (actual : EndpointR) : EndpointR :=
  match actual with
  | .urlStr s =>
      match merged.baseUrl with
      | some b =>
          if b != "" then
            .urlStr ((if b.endsWith "/" then b.dropRight 1 else b) ++ "/" ++
                     (if s.startsWith "/" then s.drop 1 else s))
          else .urlStr s
      | none => .urlStr s
  | e => e

/-- The serialized body component of the dedup key. -/
def bodyStrOf (body : Option JsVal) : String :=
  match body with
  | some b => if truthy b then jsonStringify b else ""
  | none => ""

/-- The string-endpoint dedup key: METHOD:finalURL, extended with the
serialized body when present. -/
def mkKey (method url bodyStr : String) : String :=
  method ++ ":" ++ url ++ (if bodyStr != "" then ":" ++ bodyStr else "")

/-- Key derivation, first match wins: explicit queryKey, definition
key, else the string-endpoint key; callable endpoints yield none. -/
def deriveKey (merged : QueryConfig) (definitionKey : Option String) (fe : EndpointR) : Option String :=
  if truthyStr merged.queryKey then merged.queryKey
  else if truthyStr definitionKey then definitionKey
  else
    match fe with
    | .urlStr u =>
        some (mkKey (match merged.method with
                     | some m => if m != "" then m else "GET"
                     | none => "GET")
                    u (bodyStrOf merged.body))
    | .fn _ => none

def registryFind (sys : Sys) (k : String) : Option Nat :=
  (sys.registry.find? (fun p => p.1 == k)).map (fun p => p.2)

/-- The registration step of EqueryClient.useFetch after creating a
fresh ActiveQuery: enabled queries are registered immediately with a
settle-time removal; disabled queries get the lazy execute wrapper
(recorded by lazyKey). -/
def clientRegister (sys : Sys) (qid : Nat) (enabled : Bool) (ck : Option String) : Sys :=
  match ck with
  | none => sys
  | some k =>
      if enabled then
        aqOnComplete { sys with registry := sys.registry ++ [(k, qid)] } qid (.registryRemove k)
      else updQ sys qid (fun q => { q with lazyKey := some k })

def clientCreate (sys : Sys) (merged : QueryConfig) (fe : EndpointR) (ck : Option String) : Sys × Nat :=
  let p := constructAQ sys fe merged
  let sys1 := clientRegister p.1 p.2 (merged.enabled.getD true) ck
  newObserver sys1 p.2

/-- EqueryClient.useFetch: derive the key; reuse a registered running
query when one exists, else create (and possibly register) a fresh
one; in both cases mint a new observer. -/
def clientUseFetch (sys : Sys) (clientCfg : QueryConfig) (ep : EndpointU) (cfg : QueryConfig) : Sys × Nat :=
  let merged := mergeConfig clientCfg cfg
  let fe := finalizeEndpoint merged (unwrapEndpoint ep)
  match deriveKey merged (defKeyOf ep) fe with
  | some k =>
      match registryFind sys k with
      | some qid => newObserver sys qid
      | none => clientCreate sys merged fe (some k)
  | none => clientCreate sys merged fe none

/-- The standalone useFetch of the Query module: construct and wrap,
no deduplication. -/
def useFetchStandalone (sys : Sys) (ep : EndpointU) (cfg : QueryConfig) : Sys × Nat :=
  let p := constructAQ sys (unwrapEndpoint ep) cfg
  newObserver p.1 p.2

/-- The execute method as seen through an observer: the lazy wrapper
installed by EqueryClient when present (register unless some query is
already registered under the key, then run the original execute),
else the original execute. -/
def aqExecuteTop (sys : Sys) (qid : Nat) : Sys :=
  match (getQ sys qid).lazyKey with
  | none => aqExecute sys qid
  | some k =>
      if (registryFind sys k).isSome then aqExecute sys qid
      else
        let sys1 := { sys with registry := sys.registry ++ [(k, qid)] }
        let sys2 := aqOnComplete sys1 qid (.registryRemove k)
        aqExecute sys2 qid

def obsExecute (sys : Sys) (o : Nat) : Sys := aqExecuteTop sys (getObs sys o).qid

/-- QueryObserver.onComplete: push to the own list; when the shared
operation has settled and this observer is not canceled, schedule a
deferred delivery of the snapshot captured now. -/
def obsOnComplete (sys : Sys) (o : Nat) (u : Nat) : Sys :=
  let ob := getObs sys o
  let sys1 := setObs sys o { ob with wrappedComplete := ob.wrappedComplete ++ [u] }
  let st := (getQ sys1 ob.qid).resultState
  if !st.isLoading && !ob.canceled then
    if st.isSuccess || st.isError || st.isCanceled then
      { sys1 with microtasks := sys1.microtasks ++ [.lateObsComplete u st] }
    else sys1
  else sys1

/-- QueryObserver.onError: push; deferred delivery only when settled
with isError and a truthy stored error. -/
def obsOnError (sys : Sys) (o : Nat) (u : Nat) : Sys :=
  let ob := getObs sys o
  let sys1 := setObs sys o { ob with wrappedError := ob.wrappedError ++ [u] }
  let st := (getQ sys1 ob.qid).resultState
  if !st.isLoading && !ob.canceled then
    if st.isError && truthy st.error then
      { sys1 with microtasks := sys1.microtasks ++ [.lateObsError u st.error] }
    else sys1
  else sys1

/-- QueryObserver.cancel: no-op when already canceled; else set the
flag, removeRef once, capture the completion callbacks registered at
this moment, clear both lists, and schedule one deferred fan-out of
the synthesized canceled result to the captured callbacks. -/
def obsCancel (sys : Sys) (o : Nat) : Sys :=
  let ob := getObs sys o
  if ob.canceled then sys
  else
    let sys1 := setObs sys o { ob with canceled := true }
    let sys2 := aqRemoveRef sys1 ob.qid
    let ob2 := getObs sys2 o
    let sys3 := setObs sys2 o { ob2 with wrappedComplete := [], wrappedError := [] }
    { sys3 with microtasks := sys3.microtasks ++ [.cancelFanout ob.wrappedComplete canceledResult] }

/-- Run one queued microtask. -/
def dispatchTask (sys : Sys) (t : MTask) : Sys :=
  match t with
  | .lateAQComplete qid cb => deliverComplete sys cb (getQ sys qid).resultState
  | .lateAQError cb e => deliverError sys cb e
  | .lateObsComplete u r => { sys with log := sys.log ++ [.done u r] }
  | .lateObsError u e => { sys with log := sys.log ++ [.fail u e] }
  | .cancelFanout cbs r => { sys with log := sys.log ++ cbs.map (fun u => .done u r) }

def runMicro (sys : Sys) : Sys :=
  match sys.microtasks with
  | [] => sys
  | t :: rest => dispatchTask { sys with microtasks := rest } t

/-- Drain the microtask queue (no modelled microtask enqueues another). -/
def drain (sys : Sys) : Sys :=
  sys.microtasks.foldl dispatchTask { sys with microtasks := [] }

/-- The eventual value surfaced by the future view (then and catch):
an immediately rejected promise carrying the configuration error when
never executed; otherwise, once the stored promise has resolved, the
synthesized canceled result when this observer is canceled, else the
real settlement value. -/
def thenSurfaced (sys : Sys) (o : Nat) : Option (Except String QueryResult) :=
  let ob := getObs sys o
  let q := getQ sys ob.qid
  if !q.hasPromise then some (.error "Query has not been executed")
  else
    match q.promiseValue with
    | none => none
    | some r => some (.ok (if ob.canceled then canceledResult else r))

/-- One externally triggerable step of the whole model, used to state
claims quantifying over every operation. -/
inductive Act
  | useFC (clientCfg : QueryConfig) (ep : EndpointU) (cfg : QueryConfig)
  | useFS (ep : EndpointU) (cfg : QueryConfig)
  | exec (o : Nat)
  | cancel (o : Nat)
  | onComp (o u : Nat)
  | onErr (o u : Nat)
  | aqComp (q u : Nat)
  | aqErr (q u : Nat)
  | timer (q : Nat)
  | resolve (q : Nat) (v : JsVal)
  | reject (q : Nat) (e : JsVal)
  | micro
deriving DecidableEq, Repr

def applyAct (sys : Sys) : Act → Sys
  | .useFC c ep g => (clientUseFetch sys c ep g).1
  | .useFS ep g => (useFetchStandalone sys ep g).1
  | .exec o => obsExecute sys o
  | .cancel o => obsCancel sys o
  | .onComp o u => obsOnComplete sys o u
  | .onErr o u => obsOnError sys o u
  | .aqComp q u => aqOnComplete sys q (.user u)
  | .aqErr q u => aqOnError sys q (.user u)
  | .timer q => timerFire sys q
  | .resolve q v => settleResolve sys q v
  | .reject q e => settleReject sys q e
  | .micro => runMicro sys

def applyActs (sys : Sys) (l : List Act) : Sys := l.foldl applyAct sys

end Equery

namespace Equery

theorem getD_snoc {α : Type} (l : List α) (x d : α) : (l ++ [x]).getD l.length d = x := by
  induction l with
  | nil => rfl
  | cons a t ih => simp [ih]

theorem getD_append_lt {α : Type} (l : List α) (x d : α) (j : Nat) (h : j < l.length) :
    (l ++ [x]).getD j d = l.getD j d := by
  induction l generalizing j with
  | nil => simp at h
  | cons a t ih =>
    cases j with
    | zero => rfl
    | succ m => simpa using ih m (by simpa using h)

theorem getD_map_range {α : Type} (f : Nat → α) (n i : Nat) (d : α) (h : i < n) :
    ((List.range n).map f).getD i d = f i := by
  simp [List.getD, List.getElem?_map, List.getElem?_range, h]

end Equery

namespace Equery

/-- Scenario for shared delivery: one round mints an observer through
the client against the fixed url endpoint and registers completion
callback i on it. -/
def c1Step (sys : Sys) (i : Nat) : Sys :=
  let p := clientUseFetch sys {} (.urlStr "u") {}
  obsOnComplete p.1 p.2 i

def c1Build : Nat → Sys
  | 0 => sysInit
  | n+1 => c1Step (c1Build n) n

/-- The scenario state after n observers: one running query shared by
all of them. -/
def c1Obs (i : Nat) : Obs :=
  { qid := 0, canceled := false, wrappedComplete := [i], wrappedError := [] }

def c1AQ (n : Nat) : AQ :=
  { endpoint := .urlStr "u", config := {},
    resultState := { initResult with isLoading := true },
    completeCbs := .registryRemove "GET:u" :: (List.range n).map Cb.obsCompleteRelay,
    errorCbs := (List.range n).map Cb.obsErrorRelay,
    refCount := n, hasPromise := true, promiseValue := none, hasController := true,
    sigAborted := false, didTimeout := false, hasTimeoutTimer := false, pending := true,
    lazyKey := none }

def c1Sys (n : Nat) : Sys :=
  { queries := [c1AQ n], observers := (List.range n).map c1Obs,
    registry := [("GET:u", 0)], microtasks := [], log := [], invocations := [0] }

theorem c1key_eq :
    deriveKey (mergeConfig {} {}) (defKeyOf (.urlStr "u"))
      (finalizeEndpoint (mergeConfig {} {}) (unwrapEndpoint (.urlStr "u"))) = some "GET:u" := by
  decide

theorem c1find_eq (n : Nat) : registryFind (c1Sys n) "GET:u" = some 0 := rfl

theorem c1_step (n : Nat) : c1Step (c1Sys n) n = c1Sys (n+1) := by
  show obsOnComplete (clientUseFetch (c1Sys n) {} (.urlStr "u") {}).1
      (clientUseFetch (c1Sys n) {} (.urlStr "u") {}).2 n = c1Sys (n+1)
  rw [clientUseFetch]
  rw [c1key_eq]
  simp only [c1find_eq]
  rw [newObserver]
  simp only [c1Sys, List.length_map, List.length_range]
  simp [aqAddRef, aqOnComplete, aqOnError, obsOnComplete, updQ, getQ, setQ, getObs, setObs,
    c1AQ, c1Obs, initResult]
  refine ⟨⟨?_, ?_⟩, ?_⟩ <;> simp [List.range_succ, c1Obs]

end Equery

namespace Equery

theorem c1_build (n : Nat) (h : 1 ≤ n) : c1Build n = c1Sys n := by
  induction n with
  | zero => omega
  | succ m ih =>
    cases Nat.eq_zero_or_pos m with
    | inl h0 => subst h0; decide
    | inr hp =>
      have hs : c1Build (m+1) = c1Step (c1Build m) m := rfl
      rw [hs, ih hp, c1_step]

/-- The success result written by the shared operation on resolution
with v. -/
def c1Res (v : JsVal) : QueryResult :=
  { data := v, error := .vNull, isSuccess := true, isError := false,
    isCanceled := false, isLoading := false }

theorem c1_fanout (l : List Nat) (sys : Sys) (r : QueryResult)
    (h : ∀ i ∈ l, getObs sys i = c1Obs i) :
    (l.map Cb.obsCompleteRelay).foldl (fun s cb => deliverComplete s cb r) sys
      = { sys with log := sys.log ++ l.map (fun i => Delivery.done i r) } := by
  induction l generalizing sys with
  | nil => simp
  | cons a t ih =>
    simp only [List.map_cons, List.foldl_cons]
    have ha := h a (by simp)
    have hd : deliverComplete sys (.obsCompleteRelay a) r
        = { sys with log := sys.log ++ [.done a r] } := by
      simp [deliverComplete, ha, c1Obs]
    rw [hd, ih]
    · simp
    · intro i hi
      have hh := h i (by simp [hi])
      simpa [getObs] using hh

def c1FinAQ (n : Nat) (v : JsVal) : AQ :=
  { c1AQ n with resultState := c1Res v, completeCbs := [], errorCbs := [],
                promiseValue := some (c1Res v), pending := false }

def c1Fin (n : Nat) (v : JsVal) : Sys :=
  { queries := [c1FinAQ n v],
    observers := (List.range n).map c1Obs, registry := [], microtasks := [],
    log := (List.range n).map (fun i => Delivery.done i (c1Res v)), invocations := [0] }

end Equery

namespace Equery

def c1MidAQ (n : Nat) (v : JsVal) : AQ :=
  { c1FinAQ n v with completeCbs := .registryRemove "GET:u" :: (List.range n).map Cb.obsCompleteRelay,
                     errorCbs := (List.range n).map Cb.obsErrorRelay }

def c1Mid (n : Nat) (v : JsVal) : Sys :=
  { queries := [c1MidAQ n v], observers := (List.range n).map c1Obs,
    registry := [("GET:u", 0)], microtasks := [], log := [], invocations := [0] }

theorem c1_settle_a (n : Nat) (v : JsVal) :
    settleResolve (c1Sys n) 0 v = notifyComplete (c1Mid n v) 0 := by
  rw [settleResolve]
  simp [c1Sys, c1AQ, getQ, setQ, initResult, aqHasTimeout, c1Mid, c1MidAQ, c1FinAQ, c1Res]

theorem c1_settle_b (n : Nat) (v : JsVal) : notifyComplete (c1Mid n v) 0 = c1Fin n v := by
  have hres : (c1MidAQ n v).resultState = c1Res v := rfl
  have hcbs : (c1MidAQ n v).completeCbs
      = .registryRemove "GET:u" :: (List.range n).map Cb.obsCompleteRelay := rfl
  rw [notifyComplete]
  have hq : getQ (c1Mid n v) 0 = c1MidAQ n v := rfl
  rw [hq, hcbs, hres, List.foldl_cons]
  have h1 : deliverComplete (c1Mid n v) (.registryRemove "GET:u") (c1Res v)
      = { c1Mid n v with registry := [] } := by
    simp [deliverComplete, c1Mid]
  rw [h1, c1_fanout]
  · simp [updQ, setQ, getQ, c1Mid, c1MidAQ, c1FinAQ, c1Fin, c1AQ, c1Res]
  · intro i hi
    have hilt : i < n := List.mem_range.mp hi
    simp [getObs, c1Mid, List.getD, List.getElem?_map, List.getElem?_range, hilt]

/-- Claim C1: for every n greater or equal 1, minting n observers from
the same client against the same dedup key while the keyed operation
is registered and unsettled leaves every observer wrapping the shared
operation with id 0, the unit of work invoked exactly once, and, at
settlement, delivers the shared terminal result to each observer's
completion callback exactly once (the log is exactly one delivery per
observer, in registration order, all with the shared result). -/
theorem claim_C1 (n : Nat) (h : 1 ≤ n) (v : JsVal) :
    (∀ i, i < n → (getObs (drain (settleResolve (c1Build n) 0 v)) i).qid = 0) ∧
    (drain (settleResolve (c1Build n) 0 v)).invocations = [0] ∧
    (drain (settleResolve (c1Build n) 0 v)).log
      = (List.range n).map (fun i => Delivery.done i (c1Res v)) := by
  rw [c1_build n h, c1_settle_a, c1_settle_b]
  have hd : drain (c1Fin n v) = c1Fin n v := by
    simp [drain, c1Fin]
  rw [hd]
  refine ⟨?_, rfl, rfl⟩
  intro i hilt
  simp [getObs, c1Fin, List.getD, List.getElem?_map, List.getElem?_range, hilt, c1Obs]

/-- Witness for claim C1, instantiated at two observers resolving with
the string ok. -/
theorem claim_C1_witness :
    (∀ i, i < 2 → (getObs (drain (settleResolve (c1Build 2) 0 (.vStr "ok"))) i).qid = 0) ∧
    (drain (settleResolve (c1Build 2) 0 (.vStr "ok"))).invocations = [0] ∧
    (drain (settleResolve (c1Build 2) 0 (.vStr "ok"))).log
      = (List.range 2).map (fun i => Delivery.done i (c1Res (.vStr "ok"))) :=
  claim_C1 2 (by decide) (.vStr "ok")

end Equery

namespace Equery

/-- Scenario for the lazy dedup path: two observers created with
enabled false against the same derived key (neither registered at
creation), then both executed before either settles. -/
def c2Trace : Sys :=
  let p1 := clientUseFetch sysInit {} (.urlStr "u") { enabled := some false }
  let p2 := clientUseFetch p1.1 {} (.urlStr "u") { enabled := some false }
  let s3 := obsExecute p2.1 p1.2
  obsExecute s3 p2.2

/-- Claim C2: evidence that the second execute does not defer to the
operation already registered under the key: it runs its own
ActiveQuery, so the unit of work is invoked twice, the two observers
wrap distinct operations, and only the first is registered.  This
contradicts the deferral the lazy-registration wrapper is documented
to perform. -/
theorem claim_C2_bug :
    c2Trace.invocations = [0, 1] ∧
    (getObs c2Trace 0).qid = 0 ∧ (getObs c2Trace 1).qid = 1 ∧
    (getObs c2Trace 0).qid ≠ (getObs c2Trace 1).qid ∧
    c2Trace.registry = [("GET:u", 0)] := by decide

/-- Scenario for the resultState flag invariant: one standalone query
that fails, is re-executed through its observer, and then succeeds. -/
def c5Start : Sys := (useFetchStandalone sysInit (.fn 0) {}).1

def c5Mid : Sys := obsExecute (settleReject c5Start 0 (.vErrObj "Error" "boom")) 0

def c5Trace : Sys := settleResolve c5Mid 0 (.vStr "ok")

/-- Counterexample to claim C5: after a failed execution is re-executed
and the re-execution succeeds, isSuccess and isError are both true in
the same resultState (and the stale error value is still stored);
moreover already during the re-execution isError was true while
isLoading was true. -/
theorem claim_C5_cex :
    (getQ c5Trace 0).resultState.isSuccess = true ∧
    (getQ c5Trace 0).resultState.isError = true ∧
    (getQ c5Trace 0).resultState.error = .vErrObj "Error" "boom" ∧
    (getQ c5Mid 0).resultState.isError = true ∧
    (getQ c5Mid 0).resultState.isLoading = true := by decide

/-- Bool check: at most one of the three terminal flags is set, and a
set flag forces isLoading false. -/
def flagsOkB (r : QueryResult) : Bool :=
  (decide ((cond r.isSuccess 1 0) + (cond r.isError 1 0) + (cond r.isCanceled 1 0) ≤ 1)) &&
  (!(r.isSuccess || r.isError || r.isCanceled) || !r.isLoading)

/-- Bool check: exactly one of the three terminal flags is set and
isLoading is false. -/
def exactlyOneFlag (r : QueryResult) : Bool :=
  (decide ((cond r.isSuccess 1 0) + (cond r.isError 1 0) + (cond r.isCanceled 1 0) = 1)) &&
  !r.isLoading

/-- The disabled-then-executed first execution used for the amended
claim C5. -/
def c5Fresh : Sys := (useFetchStandalone sysInit (.fn 0) { enabled := some false }).1

def c5Run : Sys := obsExecute c5Fresh 0

end Equery

namespace Equery

def c5RunAQ : AQ :=
  { endpoint := .fn 0, config := { enabled := some false },
    resultState := { initResult with isLoading := true },
    completeCbs := [.obsCompleteRelay 0], errorCbs := [.obsErrorRelay 0],
    refCount := 1, hasPromise := true, promiseValue := none, hasController := true,
    sigAborted := false, didTimeout := false, hasTimeoutTimer := false, pending := true,
    lazyKey := none }

def c5RunLit : Sys :=
  { queries := [c5RunAQ],
    observers := [{ qid := 0, canceled := false, wrappedComplete := [], wrappedError := [] }],
    registry := [], microtasks := [], log := [], invocations := [0] }

theorem c5Run_eq : c5Run = c5RunLit := by decide

/-- Claim C5 as amended: over the first execution of a Shared
Operation the invariant does hold: the freshly constructed state and
the loading state satisfy it, and whatever way the first execution
settles, the terminal result has exactly one of isSuccess, isError,
isCanceled true with isLoading false.  (Across repeated execute calls
the invariant fails, per the counterexample: flags are never reset.) -/
theorem claim_C5 :
    flagsOkB (getQ c5Fresh 0).resultState = true ∧
    flagsOkB (getQ c5Run 0).resultState = true ∧
    (∀ v, exactlyOneFlag (getQ (settleResolve c5Run 0 v) 0).resultState = true) ∧
    (∀ e, exactlyOneFlag (getQ (settleReject c5Run 0 e) 0).resultState = true) := by
  refine ⟨by decide, by decide, ?_, ?_⟩
  · intro v
    rw [c5Run_eq]
    simp [settleResolve, c5RunLit, c5RunAQ, getQ, setQ, updQ, aqHasTimeout, initResult,
      notifyComplete, deliverComplete, getObs, exactlyOneFlag]
  · intro e
    rw [c5Run_eq, settleReject]
    cases he : isAbortError e <;>
      simp [settleCatch, c5RunLit, c5RunAQ, getQ, setQ, updQ, aqHasTimeout, initResult,
        notifyComplete, notifyError, deliverComplete, deliverError, getObs, exactlyOneFlag, he]

/-- Scenario for late subscription: a standalone query settles
successfully, then a callback is registered through onComplete. -/
def c7Base : Sys := settleResolve (useFetchStandalone sysInit (.fn 0) {}).1 0 (.vStr "d")

def c7Late : Sys := aqOnComplete c7Base 0 (.user 5)

/-- Counterexample to claim C7: a callback registered via onComplete
after settlement IS appended to the already-cleared listener list
(the list goes from empty to holding the callback). -/
theorem claim_C7_cex :
    (getQ c7Base 0).completeCbs = [] ∧
    (getQ c7Late 0).completeCbs = [Cb.user 5] := by decide

/-- Error-settled base for the onError part of C7. -/
def c7BaseE : Sys := settleReject (useFetchStandalone sysInit (.fn 0) {}).1 0 (.vErrObj "Error" "x")

def c7LateE : Sys := aqOnError c7BaseE 0 (.user 6)

/-- Claim C7 as amended: immediately after settlement fan-out both
listener lists are empty; a callback registered through onComplete (or
through onError, when the operation settled with a truthy error) after
settlement receives the snapshot exactly once, on a deferred
microtask, never synchronously inside the registering call; the
callback is, however, also appended to the cleared list. -/
theorem claim_C7 :
    (getQ c7Base 0).completeCbs = [] ∧ (getQ c7Base 0).errorCbs = [] ∧
    (getQ c7BaseE 0).completeCbs = [] ∧ (getQ c7BaseE 0).errorCbs = [] ∧
    c7Late.log = c7Base.log ∧
    c7Late.microtasks = [.lateAQComplete 0 (.user 5)] ∧
    (drain c7Late).log = [.done 5 (getQ c7Base 0).resultState] ∧
    ((drain c7Late).log.count (.done 5 (getQ c7Base 0).resultState)) = 1 ∧
    c7LateE.log = c7BaseE.log ∧
    c7LateE.microtasks = [.lateAQError (.user 6) (.vErrObj "Error" "x")] ∧
    (drain c7LateE).log = [.fail 6 (.vErrObj "Error" "x")] ∧
    (getQ c7Late 0).completeCbs = [Cb.user 5] ∧
    (getQ c7LateE 0).errorCbs = [Cb.user 6] := by decide

end Equery

namespace Equery

/-- A standalone observer created with enabled false and never
executed: no promise exists. -/
def c9Never : Sys × Nat := useFetchStandalone sysInit (.fn 0) { enabled := some false }

/-- Two observers sharing one client-deduplicated operation; observer
0 cancels while observer 1 keeps the operation alive. -/
def c9Base : Sys :=
  (clientUseFetch (clientUseFetch sysInit {} (.urlStr "u") {}).1 {} (.urlStr "u") {}).1

def c9Canc : Sys := obsCancel c9Base 0

instance {ε α : Type} [DecidableEq ε] [DecidableEq α] : DecidableEq (Except ε α) := fun x y =>
  match x, y with
  | .error a, .error b =>
      if h : a = b then .isTrue (by rw [h]) else .isFalse (by simp [h])
  | .ok a, .ok b =>
      if h : a = b then .isTrue (by rw [h]) else .isFalse (by simp [h])
  | .error _, .ok _ => .isFalse (by simp)
  | .ok _, .error _ => .isFalse (by simp)

/-- Claim C9: future-style chaining on a never-executed observer is
immediately rejected with the configuration error; and once canceled,
an observer surfaces the synthesized canceled result to continuations
whatever the real outcome of the shared operation (success, error, or
cancellation) turned out to be. -/
theorem claim_C9 :
    thenSurfaced c9Never.1 c9Never.2 = some (.error "Query has not been executed") ∧
    thenSurfaced (settleResolve c9Canc 0 (.vStr "ok")) 0 = some (.ok canceledResult) ∧
    thenSurfaced (settleReject c9Canc 0 (.vErrObj "Error" "x")) 0 = some (.ok canceledResult) ∧
    thenSurfaced (settleReject (obsCancel c9Canc 1) 0 (.vErrObj "AbortError" "a")) 0
      = some (.ok canceledResult) ∧
    (getQ (settleResolve c9Canc 0 (.vStr "ok")) 0).resultState.isSuccess = true ∧
    (getQ (settleReject c9Canc 0 (.vErrObj "Error" "x")) 0).resultState.isError = true ∧
    (getQ (settleReject (obsCancel c9Canc 1) 0 (.vErrObj "AbortError" "a")) 0).resultState.isCanceled = true ∧
    thenSurfaced (settleResolve c9Canc 0 (.vStr "ok")) 1
      = some (.ok (getQ (settleResolve c9Canc 0 (.vStr "ok")) 0).resultState) := by decide

/-- A standalone query whose unit of work rejects with the raised
value e. -/
def c10S (e : JsVal) : Sys := settleReject (useFetchStandalone sysInit (.fn 0) {}).1 0 e

/-- After the falsy-error settlement, register error callbacks after
the fact on both the shared operation and the observer, then drain. -/
def c10Late (e : JsVal) : Sys := drain (obsOnError (aqOnError (c10S e) 0 (.user 7)) 0 8)

/-- Claim C10: when the unit of work fails with a falsy raised value,
the operation settles with isError true and that falsy value stored as
error, yet error callbacks registered after settlement (on the shared
operation or on the observer) are never invoked, because
post-settlement error delivery requires a truthy stored error. -/
theorem claim_C10 (e : JsVal) (h : truthy e = false) :
    (getQ (c10S e) 0).resultState.isError = true ∧
    (getQ (c10S e) 0).resultState.error = e ∧
    (c10Late e).log = [] ∧
    (c10Late e).microtasks = [] := by
  cases e with
  | vNull => decide
  | vUndefined => decide
  | vBool b =>
      have hb : b = false := by simpa [truthy] using h
      subst hb; decide
  | vNum n =>
      have hn : n = 0 := by simpa [truthy] using h
      subst hn; decide
  | vStr s =>
      have hs : s = "" := by simpa [truthy] using h
      subst hs; decide
  | vErrObj a b => simp [truthy] at h
  | vObj fs => simp [truthy] at h

/-- Witness for claim C10 at the raised value null. -/
theorem claim_C10_witness :
    truthy JsVal.vNull = false ∧
    ((getQ (c10S .vNull) 0).resultState.isError = true ∧
     (getQ (c10S .vNull) 0).resultState.error = .vNull ∧
     (c10Late .vNull).log = [] ∧
     (c10Late .vNull).microtasks = []) :=
  ⟨by decide, claim_C10 .vNull (by decide)⟩

end Equery

namespace Equery

theorem observers_hardCancel (sys : Sys) (qid : Nat) :
    (hardCancel sys qid).observers = sys.observers := by
  rw [hardCancel]; split <;> rfl

theorem observers_aqRemoveRef (sys : Sys) (qid : Nat) :
    (aqRemoveRef sys qid).observers = sys.observers := by
  rw [aqRemoveRef]; split
  · rw [observers_hardCancel]; rfl
  · rfl

theorem getObs_eq (sys : Sys) (i : Nat) : getObs sys i = sys.observers.getD i default := rfl

theorem obsCancel_of_canceled (sys : Sys) (o : Nat) (hc : (getObs sys o).canceled = true) :
    obsCancel sys o = sys := by
  simp [obsCancel, hc]

theorem obsCancel_canceled (sys : Sys) (o : Nat) (h : o < sys.observers.length)
    (hc : (getObs sys o).canceled = false) :
    (getObs (obsCancel sys o) o).canceled = true := by
  rw [obsCancel]
  simp only [hc, Bool.false_eq_true, if_false]
  rw [getObs_eq]
  simp [setObs, observers_aqRemoveRef, getObs_eq, List.getD, List.getElem?_set_self, h,
    List.set_set]

theorem obsCancel_idem (sys : Sys) (o : Nat) (h : o < sys.observers.length) :
    obsCancel (obsCancel sys o) o = obsCancel sys o := by
  by_cases hc : (getObs sys o).canceled = true
  · rw [obsCancel_of_canceled sys o hc, obsCancel_of_canceled sys o hc]
  · have hcf : (getObs sys o).canceled = false := by
      cases hb : (getObs sys o).canceled
      · rfl
      · exact absurd hb hc
    exact obsCancel_of_canceled _ o (obsCancel_canceled sys o h hcf)

/-- Scenario for cancellation: two observers share one deduplicated
operation, observer 0 holds completion callback 10 and error callback
11, observer 1 holds 20 and 21; then observer 0 cancels. -/
def c8S : Sys :=
  let p1 := clientUseFetch sysInit {} (.urlStr "u") {}
  let p2 := clientUseFetch p1.1 {} (.urlStr "u") {}
  obsOnError (obsOnComplete (obsOnError (obsOnComplete p2.1 0 10) 0 11) 1 20) 1 21

def c8C : Sys := obsCancel c8S 0

/-- Claim C8: cancel is idempotent on every observer (and literally a
no-op the second time); on the scenario, the first cancel sets the
flag, drops refCount by exactly one without touching the token,
captures exactly the completion callbacks registered at that moment,
clears both lists, delivers the synthesized canceled result exactly
once on a deferred microtask, never invokes the error callback (even
when the shared operation later settles with an error), and a callback
registered after cancel receives nothing. -/
theorem claim_C8 :
    (∀ sys o, o < sys.observers.length → obsCancel (obsCancel sys o) o = obsCancel sys o) ∧
    (getObs c8C 0).canceled = true ∧
    (getQ c8C 0).refCount = 1 ∧ (getQ c8C 0).sigAborted = false ∧
    (getObs c8C 0).wrappedComplete = [] ∧ (getObs c8C 0).wrappedError = [] ∧
    c8C.microtasks = [.cancelFanout [10] canceledResult] ∧
    (drain c8C).log = [.done 10 canceledResult] ∧
    obsCancel c8C 0 = c8C ∧
    (drain (obsOnComplete c8C 0 12)).log = [.done 10 canceledResult] ∧
    (drain (settleReject c8C 0 (.vErrObj "Error" "x"))).log
      = [.fail 21 (.vErrObj "Error" "x"),
         .done 20 (getQ (settleReject c8C 0 (.vErrObj "Error" "x")) 0).resultState,
         .done 10 canceledResult] :=
  ⟨fun sys o h => obsCancel_idem sys o h, by decide⟩

/-- Witness for claim C8: the universally quantified idempotence part
applied to the concrete scenario state. -/
theorem claim_C8_witness :
    0 < c8C.observers.length ∧ obsCancel (obsCancel c8C 0) 0 = obsCancel c8C 0 :=
  ⟨by decide, claim_C8.1 c8C 0 (by decide)⟩

end Equery

namespace Equery

theorem strAppend_cancel_right (a b c : String) (h : a ++ c = b ++ c) : a = b := by
  have hd : a.data ++ c.data = b.data ++ c.data := by
    have h2 := congrArg String.data h
    simpa [String.data_append] using h2
  have h3 := List.append_cancel_right hd
  cases a; cases b; exact congrArg String.mk h3

theorem strAppend_cancel_left (a b c : String) (h : a ++ b = a ++ c) : b = c := by
  have hd : a.data ++ b.data = a.data ++ c.data := by
    have h2 := congrArg String.data h
    simpa [String.data_append] using h2
  have h3 := List.append_cancel_left hd
  cases b; cases c; exact congrArg String.mk h3

theorem mkKey_method_inj (m1 m2 u bs : String) (h : m1 ≠ m2) :
    mkKey m1 u bs ≠ mkKey m2 u bs := by
  intro he
  apply h
  rw [mkKey, mkKey] at he
  have h1 := strAppend_cancel_right _ _ _ he
  have h2 := strAppend_cancel_right _ _ _ h1
  exact strAppend_cancel_right _ _ _ h2

theorem mkKey_body_inj (m u b1 b2 : String) (h : b1 ≠ b2) :
    mkKey m u b1 ≠ mkKey m u b2 := by
  intro he
  rw [mkKey, mkKey] at he
  have h1 := strAppend_cancel_left _ _ _ he
  by_cases e1 : b1 = ""
  · by_cases e2 : b2 = ""
    · exact h (by rw [e1, e2])
    · rw [e1] at h1
      simp only [bne_self_eq_false] at h1
      simp [e2] at h1
      have hl := congrArg String.length h1
      simp [String.length_append, show (":" : String).length = 1 from rfl] at hl
      omega
  · by_cases e2 : b2 = ""
    · rw [e2] at h1
      simp only [bne_self_eq_false] at h1
      simp [e1] at h1
      have hl := congrArg String.length h1
      simp [String.length_append, show (":" : String).length = 1 from rfl] at hl
    · simp [e1, e2] at h1
      exact h (strAppend_cancel_left _ _ _ h1)

/-- Two client calls with the same method, final URL and body. -/
def c6Same : Sys :=
  (clientUseFetch (clientUseFetch sysInit {} (.urlStr "/resource") {}).1 {}
    (.urlStr "/resource") {}).1

/-- A GET call and a POST call with a body to the same URL. -/
def c6Diff : Sys :=
  (clientUseFetch (clientUseFetch sysInit {} (.urlStr "/resource") {}).1 {}
    (.urlStr "/resource") { method := some "POST", body := some (.vObj [("some", "data")]) }).1

/-- Two client calls with the same callable endpoint and no key. -/
def c6Fn : Sys :=
  (clientUseFetch (clientUseFetch sysInit {} (.fn 0) {}).1 {} (.fn 0) {}).1

/-- Claim C6: the dedup key is first-match-wins (explicit queryKey,
then definition key, then METHOD:finalURL with the serialized body
appended when present); keys differing only in method, or only in
serialized body, are distinct; two calls with identical method, URL
and body share one operation and one invocation; a GET and a POST
with body to the same URL derive different keys and make two
invocations; callable endpoints with neither key derive no key and are
never deduplicated. -/
theorem claim_C6 :
    (∀ m1 m2 u bs, m1 ≠ m2 → mkKey m1 u bs ≠ mkKey m2 u bs) ∧
    (∀ m u b1 b2, b1 ≠ b2 → mkKey m u b1 ≠ mkKey m u b2) ∧
    deriveKey (mergeConfig {} { queryKey := some "qk" }) (some "dk")
      (.urlStr "u") = some "qk" ∧
    deriveKey (mergeConfig {} {}) (some "dk") (.urlStr "u") = some "dk" ∧
    c6Same.invocations = [0] ∧ (getObs c6Same 0).qid = (getObs c6Same 1).qid ∧
    c6Diff.invocations = [0, 1] ∧ (getObs c6Diff 0).qid ≠ (getObs c6Diff 1).qid ∧
    c6Diff.registry = [("GET:/resource", 0), ("POST:/resource:\x7b\"some\":\"data\"\x7d", 1)] ∧
    deriveKey (mergeConfig {} {}) (defKeyOf (.fn 0))
      (finalizeEndpoint (mergeConfig {} {}) (unwrapEndpoint (.fn 0))) = none ∧
    c6Fn.invocations = [0, 1] ∧ (getObs c6Fn 0).qid ≠ (getObs c6Fn 1).qid :=
  ⟨mkKey_method_inj, mkKey_body_inj, by decide⟩

/-- Witness for claim C6: the two injectivity parts applied at the
methods GET and POST and at the bodies of the worked example. -/
theorem claim_C6_witness :
    ("GET" ≠ "POST" ∧ mkKey "GET" "/resource" "" ≠ mkKey "POST" "/resource" "") ∧
    ("" ≠ "\x7b\"some\":\"data\"\x7d" ∧
      mkKey "POST" "/resource" "" ≠ mkKey "POST" "/resource" "\x7b\"some\":\"data\"\x7d") :=
  ⟨⟨by decide, claim_C6.1 "GET" "POST" "/resource" "" (by decide)⟩,
   ⟨by decide, claim_C6.2.1 "POST" "/resource" "" "\x7b\"some\":\"data\"\x7d" (by decide)⟩⟩

end Equery

namespace Equery

theorem getD_set_general {α : Type} (l : List α) (i j : Nat) (a d : α) :
    (l.set i a).getD j d = if j = i ∧ i < l.length then a else l.getD j d := by
  induction l generalizing i j with
  | nil => simp
  | cons x t ih =>
    cases i with
    | zero =>
      cases j with
      | zero => simp
      | succ jm => simp
    | succ im =>
      cases j with
      | zero => simp
      | succ jm => simpa [List.getD, Nat.succ_lt_succ_iff] using ih im jm

theorem getQ_eq (sys : Sys) (i : Nat) : getQ sys i = sys.queries.getD i default := rfl

theorem getQ_setQ (sys : Sys) (j : Nat) (q : AQ) (i : Nat) :
    getQ (setQ sys j q) i
      = if i = j ∧ j < sys.queries.length then q else getQ sys i := by
  show (sys.queries.set j q).getD i default = _
  rw [getD_set_general]
  rfl

theorem getQ_updQ (sys : Sys) (j : Nat) (f : AQ → AQ) (i : Nat) :
    getQ (updQ sys j f) i
      = if i = j ∧ j < sys.queries.length then f (getQ sys j) else getQ sys i := by
  rw [updQ, getQ_setQ]

theorem queries_deliverComplete (sys : Sys) (cb : Cb) (r : QueryResult) :
    (deliverComplete sys cb r).queries = sys.queries := by
  cases cb with
  | user u => rfl
  | obsCompleteRelay o => rw [deliverComplete]; split <;> rfl
  | obsErrorRelay o => rfl
  | registryRemove k => rfl

theorem queries_deliverError (sys : Sys) (cb : Cb) (e : JsVal) :
    (deliverError sys cb e).queries = sys.queries := by
  cases cb with
  | user u => rfl
  | obsCompleteRelay o => rfl
  | obsErrorRelay o => rw [deliverError]; split <;> rfl
  | registryRemove k => rfl

theorem queries_foldl_dc (cbs : List Cb) (sys : Sys) (r : QueryResult) :
    (cbs.foldl (fun s cb => deliverComplete s cb r) sys).queries = sys.queries := by
  induction cbs generalizing sys with
  | nil => rfl
  | cons c t ih => simp [List.foldl_cons, ih, queries_deliverComplete]

theorem queries_foldl_de (cbs : List Cb) (sys : Sys) (e : JsVal) :
    (cbs.foldl (fun s cb => deliverError s cb e) sys).queries = sys.queries := by
  induction cbs generalizing sys with
  | nil => rfl
  | cons c t ih => simp [List.foldl_cons, ih, queries_deliverError]

theorem queries_notifyError (sys : Sys) (qid : Nat) (e : JsVal) :
    (notifyError sys qid e).queries = sys.queries := by
  rw [notifyError]; exact queries_foldl_de _ _ _

theorem getQ_notifyError (sys : Sys) (qid : Nat) (e : JsVal) (i : Nat) :
    getQ (notifyError sys qid e) i = getQ sys i := by
  rw [getQ_eq, getQ_eq, queries_notifyError]

theorem resultState_notifyComplete (sys : Sys) (qid i : Nat) :
    (getQ (notifyComplete sys qid) i).resultState = (getQ sys i).resultState := by
  rw [notifyComplete]
  have hq : ∀ s : Sys, s.queries = sys.queries →
      (getQ (updQ s qid fun q2 => { q2 with completeCbs := [], errorCbs := [] }) i).resultState
        = (getQ sys i).resultState := by
    intro s hs
    rw [getQ_updQ]
    have hg : ∀ j, getQ s j = getQ sys j := by intro j; rw [getQ_eq, getQ_eq, hs]
    split
    · next h => obtain ⟨h1, h2⟩ := h; subst h1; rw [hg]
    · rw [hg]
  exact hq _ (queries_foldl_dc _ _ _)

end Equery

namespace Equery

def isFailD : Delivery → Bool
  | .fail _ _ => true
  | _ => false

def isDoneD : Delivery → Bool
  | .done _ _ => true
  | _ => false

theorem deliverError_log (sys : Sys) (cb : Cb) (e : JsVal) :
    ∃ E, (deliverError sys cb e).log = sys.log ++ E ∧ ∀ d ∈ E, isFailD d = true := by
  cases cb with
  | user u => exact ⟨[.fail u e], rfl, by simp [isFailD]⟩
  | obsCompleteRelay o => exact ⟨[], by simp [deliverError], by simp⟩
  | obsErrorRelay o =>
      rw [deliverError]
      split
      · exact ⟨[], by simp, by simp⟩
      · refine ⟨_, rfl, ?_⟩
        intro d hd
        obtain ⟨u, _, rfl⟩ := List.mem_map.mp hd
        rfl
  | registryRemove k => exact ⟨[], by simp [deliverError], by simp⟩

theorem deliverComplete_log (sys : Sys) (cb : Cb) (r : QueryResult) :
    ∃ C, (deliverComplete sys cb r).log = sys.log ++ C ∧ ∀ d ∈ C, isDoneD d = true := by
  cases cb with
  | user u => exact ⟨[.done u r], rfl, by simp [isDoneD]⟩
  | obsCompleteRelay o =>
      rw [deliverComplete]
      split
      · exact ⟨[], by simp, by simp⟩
      · refine ⟨_, rfl, ?_⟩
        intro d hd
        obtain ⟨u, _, rfl⟩ := List.mem_map.mp hd
        rfl
  | obsErrorRelay o => exact ⟨[], by simp [deliverComplete], by simp⟩
  | registryRemove k => exact ⟨[], by simp [deliverComplete], by simp⟩

theorem foldl_de_log (cbs : List Cb) (sys : Sys) (e : JsVal) :
    ∃ E, (cbs.foldl (fun s cb => deliverError s cb e) sys).log = sys.log ++ E
      ∧ ∀ d ∈ E, isFailD d = true := by
  induction cbs generalizing sys with
  | nil => exact ⟨[], by simp, by simp⟩
  | cons c t ih =>
    obtain ⟨E1, h1, hA⟩ := deliverError_log sys c e
    obtain ⟨E2, h2, hB⟩ := ih (deliverError sys c e)
    refine ⟨E1 ++ E2, ?_, ?_⟩
    · rw [List.foldl_cons, h2, h1, List.append_assoc]
    · intro d hd
      rcases List.mem_append.mp hd with h | h
      · exact hA d h
      · exact hB d h

theorem foldl_dc_log (cbs : List Cb) (sys : Sys) (r : QueryResult) :
    ∃ C, (cbs.foldl (fun s cb => deliverComplete s cb r) sys).log = sys.log ++ C
      ∧ ∀ d ∈ C, isDoneD d = true := by
  induction cbs generalizing sys with
  | nil => exact ⟨[], by simp, by simp⟩
  | cons c t ih =>
    obtain ⟨C1, h1, hA⟩ := deliverComplete_log sys c r
    obtain ⟨C2, h2, hB⟩ := ih (deliverComplete sys c r)
    refine ⟨C1 ++ C2, ?_, ?_⟩
    · rw [List.foldl_cons, h2, h1, List.append_assoc]
    · intro d hd
      rcases List.mem_append.mp hd with h | h
      · exact hA d h
      · exact hB d h

theorem notifyError_log (sys : Sys) (qid : Nat) (e : JsVal) :
    ∃ E, (notifyError sys qid e).log = sys.log ++ E ∧ ∀ d ∈ E, isFailD d = true := by
  rw [notifyError]; exact foldl_de_log _ _ _

theorem notifyComplete_log (sys : Sys) (qid : Nat) :
    ∃ C, (notifyComplete sys qid).log = sys.log ++ C ∧ ∀ d ∈ C, isDoneD d = true := by
  rw [notifyComplete]
  obtain ⟨C, hC, hA⟩ := foldl_dc_log (getQ sys qid).completeCbs sys (getQ sys qid).resultState
  exact ⟨C, by simp [updQ, setQ, hC], hA⟩

end Equery

namespace Equery

theorem pending_lt (sys : Sys) (qid : Nat) (hp : (getQ sys qid).pending = true) :
    qid < sys.queries.length := by
  by_contra hge
  have hnone : sys.queries[qid]? = none := List.getElem?_eq_none (by omega)
  have hdef : getQ sys qid = default := by
    rw [getQ_eq]; simp [List.getD, hnone]
  rw [hdef] at hp
  exact absurd hp (by decide)

def catchRS1 (q : AQ) : QueryResult :=
  { q.resultState with isLoading := false, isError := true, error := timeoutErrVal q }

def catchQ1 (q : AQ) : AQ :=
  { q with hasTimeoutTimer := false, resultState := catchRS1 q, pending := false,
           promiseValue := some (catchRS1 q) }

def catchRS2 (q : AQ) : QueryResult :=
  { q.resultState with isLoading := false, isCanceled := true }

def catchQ2 (q : AQ) : AQ :=
  { q with hasTimeoutTimer := false, resultState := catchRS2 q, pending := false,
           promiseValue := some (catchRS2 q) }

def catchRS3 (q : AQ) (e : JsVal) : QueryResult :=
  { q.resultState with isLoading := false, isError := true, error := e }

def catchQ3 (q : AQ) (e : JsVal) : AQ :=
  { q with hasTimeoutTimer := false, resultState := catchRS3 q e, pending := false,
           promiseValue := some (catchRS3 q e) }

theorem settleCatch_eq (sys : Sys) (qid : Nat) (e : JsVal) :
    settleCatch sys qid e =
      (if (getQ sys qid).didTimeout && aqHasTimeout (getQ sys qid) then
        notifyComplete
          (notifyError (setQ sys qid (catchQ1 (getQ sys qid))) qid (timeoutErrVal (getQ sys qid)))
          qid
      else if isAbortError e || (getQ sys qid).sigAborted then
        notifyComplete (setQ sys qid (catchQ2 (getQ sys qid))) qid
      else
        notifyComplete (notifyError (setQ sys qid (catchQ3 (getQ sys qid) e)) qid e) qid) := by
  rfl

end Equery

namespace Equery

theorem settle_classify1 (sys : Sys) (qid : Nat) (e : JsVal)
    (hp : (getQ sys qid).pending = true)
    (hdt : (getQ sys qid).didTimeout = true)
    (hto : aqHasTimeout (getQ sys qid) = true) :
    (getQ (settleReject sys qid e) qid).resultState = catchRS1 (getQ sys qid) ∧
    ∃ E C, (settleReject sys qid e).log = sys.log ++ E ++ C
      ∧ (∀ d ∈ E, isFailD d = true) ∧ (∀ d ∈ C, isDoneD d = true) := by
  have hlen := pending_lt sys qid hp
  rw [settleReject, if_pos hp, settleCatch_eq, if_pos (by rw [hdt, hto]; rfl)]
  constructor
  · rw [resultState_notifyComplete, getQ_notifyError, getQ_setQ, if_pos ⟨rfl, hlen⟩]
    rfl
  · obtain ⟨E, hE, hA⟩ :=
      notifyError_log (setQ sys qid (catchQ1 (getQ sys qid))) qid (timeoutErrVal (getQ sys qid))
    obtain ⟨C, hC, hB⟩ :=
      notifyComplete_log
        (notifyError (setQ sys qid (catchQ1 (getQ sys qid))) qid (timeoutErrVal (getQ sys qid))) qid
    refine ⟨E, C, ?_, hA, hB⟩
    rw [hC, hE]
    rfl

theorem settle_classify2 (sys : Sys) (qid : Nat) (e : JsVal)
    (hp : (getQ sys qid).pending = true)
    (hdt : (getQ sys qid).didTimeout = false)
    (hab : (isAbortError e || (getQ sys qid).sigAborted) = true) :
    (getQ (settleReject sys qid e) qid).resultState = catchRS2 (getQ sys qid) ∧
    (getQ (settleReject sys qid e) qid).resultState.isCanceled = true ∧
    (getQ (settleReject sys qid e) qid).resultState.error
      = (getQ sys qid).resultState.error ∧
    (getQ (settleReject sys qid e) qid).resultState.isError
      = (getQ sys qid).resultState.isError ∧
    ∃ C, (settleReject sys qid e).log = sys.log ++ C ∧ ∀ d ∈ C, isDoneD d = true := by
  have hlen := pending_lt sys qid hp
  rw [settleReject, if_pos hp, settleCatch_eq, if_neg (by simp [hdt]), if_pos hab]
  have hrs : (getQ (notifyComplete (setQ sys qid (catchQ2 (getQ sys qid))) qid) qid).resultState
      = catchRS2 (getQ sys qid) := by
    rw [resultState_notifyComplete, getQ_setQ, if_pos ⟨rfl, hlen⟩]
    rfl
  refine ⟨hrs, by rw [hrs]; rfl, by rw [hrs]; rfl, by rw [hrs]; rfl, ?_⟩
  obtain ⟨C, hC, hB⟩ := notifyComplete_log (setQ sys qid (catchQ2 (getQ sys qid))) qid
  exact ⟨C, by rw [hC]; rfl, hB⟩

theorem settle_classify3 (sys : Sys) (qid : Nat) (e : JsVal)
    (hp : (getQ sys qid).pending = true)
    (hdt : (getQ sys qid).didTimeout = false)
    (hab : (isAbortError e || (getQ sys qid).sigAborted) = false) :
    (getQ (settleReject sys qid e) qid).resultState = catchRS3 (getQ sys qid) e ∧
    (getQ (settleReject sys qid e) qid).resultState.isError = true ∧
    (getQ (settleReject sys qid e) qid).resultState.error = e ∧
    ∃ E C, (settleReject sys qid e).log = sys.log ++ E ++ C
      ∧ (∀ d ∈ E, isFailD d = true) ∧ (∀ d ∈ C, isDoneD d = true) := by
  have hlen := pending_lt sys qid hp
  rw [settleReject, if_pos hp, settleCatch_eq, if_neg (by simp [hdt]),
    if_neg (by simp [hab])]
  have hrs : (getQ (notifyComplete (notifyError (setQ sys qid (catchQ3 (getQ sys qid) e)) qid e) qid) qid).resultState
      = catchRS3 (getQ sys qid) e := by
    rw [resultState_notifyComplete, getQ_notifyError, getQ_setQ, if_pos ⟨rfl, hlen⟩]
    rfl
  refine ⟨hrs, by rw [hrs]; rfl, by rw [hrs]; rfl, ?_⟩
  obtain ⟨E, hE, hA⟩ := notifyError_log (setQ sys qid (catchQ3 (getQ sys qid) e)) qid e
  obtain ⟨C, hC, hB⟩ :=
    notifyComplete_log (notifyError (setQ sys qid (catchQ3 (getQ sys qid) e)) qid e) qid
  refine ⟨E, C, ?_, hA, hB⟩
  rw [hC, hE]
  rfl

end Equery

namespace Equery

/-- A standalone query with a 10ms timeout whose timer has fired while
the work is still in flight (the work would settle later, at 50ms). -/
def c3W1 : Sys := timerFire (useFetchStandalone sysInit (.fn 0) { timeout := some 10 }).1 0

/-- A standalone query in flight with no timeout configured. -/
def c3W0 : Sys := (useFetchStandalone sysInit (.fn 0) {}).1

/-- The timeout worked example: timeout 10ms, a completion callback 0
and an error callback 1 registered, the timer fires, then the aborted
work rejects. -/
def c3Timeout : Sys :=
  drain (settleReject (timerFire (obsOnComplete (obsOnError
    (useFetchStandalone sysInit (.fn 0) { timeout := some 10 }).1 0 1) 0 0) 0) 0
    (.vErrObj "AbortError" "aborted"))

/-- Claim C3: a failing execution is classified with the timed-out
flag first (isError with the timeout error whose message names the
configured duration, error listeners notified before completion
listeners), then abort-shaped or triggered-token failures (isCanceled
only, error and isError untouched, completion listeners only), then
everything else (isError with the raised value, error listeners before
completion listeners); and in the worked example with timeout 10ms and
late work the result is isError true, isCanceled false, with the
message timeout of 10ms exceeded, the error listener hearing it before
the completion listener. -/
theorem claim_C3 :
    (∀ sys qid e, (getQ sys qid).pending = true → (getQ sys qid).didTimeout = true →
      aqHasTimeout (getQ sys qid) = true →
      (getQ (settleReject sys qid e) qid).resultState = catchRS1 (getQ sys qid) ∧
      ∃ E C, (settleReject sys qid e).log = sys.log ++ E ++ C
        ∧ (∀ d ∈ E, isFailD d = true) ∧ (∀ d ∈ C, isDoneD d = true)) ∧
    (∀ sys qid e, (getQ sys qid).pending = true → (getQ sys qid).didTimeout = false →
      (isAbortError e || (getQ sys qid).sigAborted) = true →
      (getQ (settleReject sys qid e) qid).resultState = catchRS2 (getQ sys qid) ∧
      (getQ (settleReject sys qid e) qid).resultState.isCanceled = true ∧
      (getQ (settleReject sys qid e) qid).resultState.error
        = (getQ sys qid).resultState.error ∧
      (getQ (settleReject sys qid e) qid).resultState.isError
        = (getQ sys qid).resultState.isError ∧
      ∃ C, (settleReject sys qid e).log = sys.log ++ C ∧ ∀ d ∈ C, isDoneD d = true) ∧
    (∀ sys qid e, (getQ sys qid).pending = true → (getQ sys qid).didTimeout = false →
      (isAbortError e || (getQ sys qid).sigAborted) = false →
      (getQ (settleReject sys qid e) qid).resultState = catchRS3 (getQ sys qid) e ∧
      (getQ (settleReject sys qid e) qid).resultState.isError = true ∧
      (getQ (settleReject sys qid e) qid).resultState.error = e ∧
      ∃ E C, (settleReject sys qid e).log = sys.log ++ E ++ C
        ∧ (∀ d ∈ E, isFailD d = true) ∧ (∀ d ∈ C, isDoneD d = true)) ∧
    (getQ c3Timeout 0).resultState.isError = true ∧
    (getQ c3Timeout 0).resultState.isCanceled = false ∧
    (getQ c3Timeout 0).resultState.error = .vErrObj "Error" "timeout of 10ms exceeded" ∧
    timeoutErrVal (getQ c3W1 0) = .vErrObj "Error" "timeout of 10ms exceeded" ∧
    c3Timeout.log = [.fail 1 (.vErrObj "Error" "timeout of 10ms exceeded"),
                     .done 0 (getQ c3Timeout 0).resultState] :=
  ⟨settle_classify1, settle_classify2, settle_classify3, by decide⟩

/-- Witness for claim C3: the three classification branches applied to
concrete in-flight states. -/
theorem claim_C3_witness :
    ((getQ (settleReject c3W1 0 .vNull) 0).resultState = catchRS1 (getQ c3W1 0) ∧
      ∃ E C, (settleReject c3W1 0 .vNull).log = c3W1.log ++ E ++ C
        ∧ (∀ d ∈ E, isFailD d = true) ∧ (∀ d ∈ C, isDoneD d = true)) ∧
    ((getQ (settleReject c3W0 0 (.vErrObj "AbortError" "a")) 0).resultState
        = catchRS2 (getQ c3W0 0) ∧
      (getQ (settleReject c3W0 0 (.vErrObj "AbortError" "a")) 0).resultState.isCanceled = true ∧
      (getQ (settleReject c3W0 0 (.vErrObj "AbortError" "a")) 0).resultState.error
        = (getQ c3W0 0).resultState.error ∧
      (getQ (settleReject c3W0 0 (.vErrObj "AbortError" "a")) 0).resultState.isError
        = (getQ c3W0 0).resultState.isError ∧
      ∃ C, (settleReject c3W0 0 (.vErrObj "AbortError" "a")).log = c3W0.log ++ C
        ∧ ∀ d ∈ C, isDoneD d = true) ∧
    ((getQ (settleReject c3W0 0 (.vErrObj "Error" "x")) 0).resultState
        = catchRS3 (getQ c3W0 0) (.vErrObj "Error" "x") ∧
      (getQ (settleReject c3W0 0 (.vErrObj "Error" "x")) 0).resultState.isError = true ∧
      (getQ (settleReject c3W0 0 (.vErrObj "Error" "x")) 0).resultState.error
        = .vErrObj "Error" "x" ∧
      ∃ E C, (settleReject c3W0 0 (.vErrObj "Error" "x")).log = c3W0.log ++ E ++ C
        ∧ (∀ d ∈ E, isFailD d = true) ∧ (∀ d ∈ C, isDoneD d = true)) :=
  ⟨claim_C3.1 c3W1 0 .vNull (by decide) (by decide) (by decide),
   claim_C3.2.1 c3W0 0 (.vErrObj "AbortError" "a") (by decide) (by decide) (by decide),
   claim_C3.2.2.1 c3W0 0 (.vErrObj "Error" "x") (by decide) (by decide) (by decide)⟩

end Equery

namespace Equery

theorem getQ_oob (sys : Sys) (qid : Nat) (h : sys.queries.length ≤ qid) :
    getQ sys qid = default := by
  have hnone : sys.queries[qid]? = none := List.getElem?_eq_none h
  rw [getQ_eq]; simp [List.getD, hnone]

theorem getQ_congr (s t : Sys) (h : s.queries = t.queries) (i : Nat) : getQ s i = getQ t i := by
  rw [getQ_eq, getQ_eq, h]

theorem sig_updQ (sys : Sys) (j : Nat) (f : AQ → AQ)
    (hf : ∀ q, (f q).sigAborted = q.sigAborted) (i : Nat) :
    (getQ (updQ sys j f) i).sigAborted = (getQ sys i).sigAborted := by
  rw [getQ_updQ]
  split
  · next h => obtain ⟨rfl, _⟩ := h; rw [hf]
  · rfl

theorem queries_setObs (sys : Sys) (o : Nat) (ob : Obs) : (setObs sys o ob).queries = sys.queries := rfl

theorem queries_obsOnComplete (sys : Sys) (o u : Nat) :
    (obsOnComplete sys o u).queries = sys.queries := by
  rw [obsOnComplete]
  split
  · split <;> rfl
  · rfl

theorem queries_obsOnError (sys : Sys) (o u : Nat) :
    (obsOnError sys o u).queries = sys.queries := by
  rw [obsOnError]
  split
  · split <;> rfl
  · rfl

theorem queries_dispatchTask (sys : Sys) (t : MTask) :
    (dispatchTask sys t).queries = sys.queries := by
  cases t with
  | lateAQComplete qid cb => exact queries_deliverComplete _ _ _
  | lateAQError cb e => exact queries_deliverError _ _ _
  | lateObsComplete u r => rfl
  | lateObsError u e => rfl
  | cancelFanout cbs r => rfl

theorem queries_runMicro (sys : Sys) : (runMicro sys).queries = sys.queries := by
  rw [runMicro]
  split
  · rfl
  · exact queries_dispatchTask _ _

theorem sig_aqOnComplete (sys : Sys) (qid : Nat) (cb : Cb) (i : Nat) :
    (getQ (aqOnComplete sys qid cb) i).sigAborted = (getQ sys i).sigAborted := by
  rw [aqOnComplete]
  split
  · exact sig_updQ sys qid
      (fun q => { q with completeCbs := q.completeCbs ++ [cb] }) (fun q => rfl) i
  · exact sig_updQ sys qid
      (fun q => { q with completeCbs := q.completeCbs ++ [cb] }) (fun q => rfl) i

theorem sig_aqOnError (sys : Sys) (qid : Nat) (cb : Cb) (i : Nat) :
    (getQ (aqOnError sys qid cb) i).sigAborted = (getQ sys i).sigAborted := by
  rw [aqOnError]
  split
  · exact sig_updQ sys qid
      (fun q => { q with errorCbs := q.errorCbs ++ [cb] }) (fun q => rfl) i
  · exact sig_updQ sys qid
      (fun q => { q with errorCbs := q.errorCbs ++ [cb] }) (fun q => rfl) i

end Equery

namespace Equery

theorem sig_setQ (sys : Sys) (j : Nat) (q : AQ)
    (hq : q.sigAborted = (getQ sys j).sigAborted) (i : Nat) :
    (getQ (setQ sys j q) i).sigAborted = (getQ sys i).sigAborted := by
  rw [getQ_setQ]
  split
  · next h => obtain ⟨rfl, _⟩ := h; rw [hq]
  · rfl

theorem sig_notifyError (sys : Sys) (qid : Nat) (e : JsVal) (i : Nat) :
    (getQ (notifyError sys qid e) i).sigAborted = (getQ sys i).sigAborted := by
  rw [getQ_congr _ sys (queries_notifyError sys qid e) i]

theorem sig_notifyComplete (sys : Sys) (qid : Nat) (i : Nat) :
    (getQ (notifyComplete sys qid) i).sigAborted = (getQ sys i).sigAborted := by
  rw [notifyComplete]
  have h1 := getQ_congr _ sys
    (queries_foldl_dc (getQ sys qid).completeCbs sys (getQ sys qid).resultState)
  rw [sig_updQ _ qid (fun q2 => { q2 with completeCbs := [], errorCbs := [] }) (fun q => rfl) i,
    h1 i]

theorem sig_settleCatch (sys : Sys) (qid : Nat) (e : JsVal) (i : Nat) :
    (getQ (settleCatch sys qid e) i).sigAborted = (getQ sys i).sigAborted := by
  rw [settleCatch_eq]
  split
  · rw [sig_notifyComplete, sig_notifyError, sig_setQ]
    rfl
  · split
    · rw [sig_notifyComplete, sig_setQ]
      rfl
    · rw [sig_notifyComplete, sig_notifyError, sig_setQ]
      rfl

theorem sig_settleReject (sys : Sys) (qid : Nat) (e : JsVal) (i : Nat) :
    (getQ (settleReject sys qid e) i).sigAborted = (getQ sys i).sigAborted := by
  rw [settleReject]
  split
  · exact sig_settleCatch sys qid e i
  · rfl

end Equery

namespace Equery

def resolveQ0 (q : AQ) : AQ := { q with hasTimeoutTimer := false }

def resolveRS (q : AQ) (v : JsVal) : QueryResult :=
  { q.resultState with data := v, isSuccess := true, isLoading := false }

def resolveQS (q : AQ) (v : JsVal) : AQ :=
  { resolveQ0 q with resultState := resolveRS q v, pending := false,
                     promiseValue := some (resolveRS q v) }

theorem settleResolve_eq (sys : Sys) (qid : Nat) (v : JsVal) :
    settleResolve sys qid v =
      if (getQ sys qid).pending then
        (if (getQ sys qid).sigAborted then
          (if (getQ sys qid).didTimeout && aqHasTimeout (getQ sys qid) then
            settleCatch (setQ sys qid (resolveQ0 (getQ sys qid))) qid
              (timeoutErrVal (getQ sys qid))
          else
            settleCatch (setQ sys qid (resolveQ0 (getQ sys qid))) qid
              (.vErrObj "Error" "Aborted"))
        else
          notifyComplete
            (setQ (setQ sys qid (resolveQ0 (getQ sys qid))) qid
              (resolveQS (getQ sys qid) v)) qid)
      else sys := by
  rfl

theorem sig_settleResolve (sys : Sys) (qid : Nat) (v : JsVal) (i : Nat) :
    (getQ (settleResolve sys qid v) i).sigAborted = (getQ sys i).sigAborted := by
  rw [settleResolve_eq]
  split
  · split
    · split
      · rw [sig_settleCatch, sig_setQ]
        rfl
      · rw [sig_settleCatch, sig_setQ]
        rfl
    · rw [sig_notifyComplete]
      have h2 : ((resolveQS (getQ sys qid) v)).sigAborted
          = (getQ (setQ sys qid (resolveQ0 (getQ sys qid))) qid).sigAborted := by
        rw [getQ_setQ]
        split
        · rfl
        · rfl
      rw [sig_setQ _ _ _ h2, sig_setQ]
      rfl
  · rfl

theorem sig_aqExecute (sys : Sys) (qid : Nat) (i : Nat)
    (h : (getQ (aqExecute sys qid) i).sigAborted = true) :
    (getQ sys i).sigAborted = true := by
  rw [aqExecute] at h
  split at h
  · exact h
  · rw [show ∀ s : Sys, ∀ il : List Nat, getQ { s with invocations := il } i = getQ s i
        from fun s il => rfl] at h
    rw [getQ_setQ] at h
    split at h
    · exact absurd h (by simp)
    · exact h

end Equery

namespace Equery

theorem sig_aqAddRef (sys : Sys) (qid i : Nat) :
    (getQ (aqAddRef sys qid) i).sigAborted = (getQ sys i).sigAborted := by
  rw [aqAddRef]
  exact sig_updQ sys qid (fun q => { q with refCount := q.refCount + 1 }) (fun q => rfl) i

theorem sig_newObserver (sys : Sys) (qid : Nat) (i : Nat) :
    (getQ ((newObserver sys qid).1) i).sigAborted = (getQ sys i).sigAborted := by
  rw [newObserver]
  rw [sig_aqOnError, sig_aqOnComplete, sig_aqAddRef]
  rfl

theorem sig_constructAQ (sys : Sys) (fe : EndpointR) (cfg : QueryConfig) (i : Nat)
    (h : (getQ ((constructAQ sys fe cfg).1) i).sigAborted = true) :
    (getQ sys i).sigAborted = true := by
  rw [constructAQ] at h
  have happ : ∀ (q0 : AQ), q0.sigAborted = false →
      (getQ { sys with queries := sys.queries ++ [q0] } i).sigAborted = true →
      (getQ sys i).sigAborted = true := by
    intro q0 hq0 hg
    rw [getQ_eq] at hg
    by_cases hlt : i < sys.queries.length
    · rw [show ({ sys with queries := sys.queries ++ [q0] } : Sys).queries
          = sys.queries ++ [q0] from rfl, getD_append_lt _ _ _ _ hlt] at hg
      exact hg
    · by_cases heq : i = sys.queries.length
      · subst heq
        rw [show ({ sys with queries := sys.queries ++ [q0] } : Sys).queries
            = sys.queries ++ [q0] from rfl, getD_snoc] at hg
        rw [hq0] at hg
        exact absurd hg (by simp)
      · have hge : (sys.queries ++ [q0]).length ≤ i := by
          simp only [List.length_append, List.length_cons, List.length_nil]
          omega
        rw [show ({ sys with queries := sys.queries ++ [q0] } : Sys).queries
            = sys.queries ++ [q0] from rfl] at hg
        have : (sys.queries ++ [q0]).getD i default = default := by
          simp [List.getD, List.getElem?_eq_none hge]
        rw [this] at hg
        exact absurd hg (by decide)
  split at h
  · exact happ _ rfl (sig_aqExecute _ _ _ h)
  · exact happ _ rfl h

theorem sig_clientRegister (sys : Sys) (qid : Nat) (enabled : Bool) (ck : Option String) (i : Nat) :
    (getQ (clientRegister sys qid enabled ck) i).sigAborted = (getQ sys i).sigAborted := by
  cases ck with
  | none => rfl
  | some k =>
      simp only [clientRegister]
      split
      · rw [sig_aqOnComplete]
        rfl
      · exact sig_updQ sys qid (fun q => { q with lazyKey := some k }) (fun q => rfl) i

theorem sig_clientCreate (sys : Sys) (merged : QueryConfig) (fe : EndpointR)
    (ck : Option String) (i : Nat)
    (h : (getQ ((clientCreate sys merged fe ck).1) i).sigAborted = true) :
    (getQ sys i).sigAborted = true := by
  rw [clientCreate] at h
  rw [sig_newObserver, sig_clientRegister] at h
  exact sig_constructAQ sys fe merged i h

theorem sig_clientUseFetch (sys : Sys) (c : QueryConfig) (ep : EndpointU) (g : QueryConfig) (i : Nat)
    (h : (getQ ((clientUseFetch sys c ep g).1) i).sigAborted = true) :
    (getQ sys i).sigAborted = true := by
  rw [clientUseFetch] at h
  split at h
  · split at h
    · rw [sig_newObserver] at h
      exact h
    · exact sig_clientCreate _ _ _ _ _ h
  · exact sig_clientCreate _ _ _ _ _ h

theorem sig_useFetchStandalone (sys : Sys) (ep : EndpointU) (g : QueryConfig) (i : Nat)
    (h : (getQ ((useFetchStandalone sys ep g).1) i).sigAborted = true) :
    (getQ sys i).sigAborted = true := by
  rw [useFetchStandalone] at h
  rw [sig_newObserver] at h
  exact sig_constructAQ _ _ _ _ h

theorem sig_aqExecuteTop (sys : Sys) (qid : Nat) (i : Nat)
    (h : (getQ (aqExecuteTop sys qid) i).sigAborted = true) :
    (getQ sys i).sigAborted = true := by
  rw [aqExecuteTop] at h
  split at h
  · exact sig_aqExecute _ _ _ h
  · split at h
    · exact sig_aqExecute _ _ _ h
    · have h2 := sig_aqExecute _ _ _ h
      rw [sig_aqOnComplete] at h2
      exact h2

theorem sig_runMicro (sys : Sys) (i : Nat) :
    (getQ (runMicro sys) i).sigAborted = (getQ sys i).sigAborted := by
  rw [getQ_congr _ sys (queries_runMicro sys) i]

end Equery

namespace Equery

theorem len_updQ (sys : Sys) (j : Nat) (f : AQ → AQ) :
    (updQ sys j f).queries.length = sys.queries.length := by
  simp [updQ, setQ]

theorem removeRef_abort_iff (sys : Sys) (qid : Nat)
    (h0 : (getQ sys qid).sigAborted = false) :
    ((getQ (aqRemoveRef sys qid) qid).sigAborted = true ↔
      ((getQ sys qid).refCount - 1 ≤ 0 ∧ (getQ sys qid).resultState.isLoading = true
        ∧ (getQ sys qid).hasController = true)) := by
  rw [aqRemoveRef]
  by_cases hlen : qid < sys.queries.length
  · have hupd : getQ (updQ sys qid (fun q => { q with refCount := q.refCount - 1 })) qid
        = { getQ sys qid with refCount := (getQ sys qid).refCount - 1 } := by
      rw [getQ_updQ, if_pos ⟨rfl, hlen⟩]
    by_cases hrc : (getQ sys qid).refCount - 1 ≤ 0
    · rw [if_pos (by rw [hupd]; exact hrc)]
      rw [hardCancel]
      by_cases hld : (getQ sys qid).resultState.isLoading = true
      · by_cases hhc : (getQ sys qid).hasController = true
        · rw [if_pos (by rw [hupd]; show ((getQ sys qid).resultState.isLoading
              && (getQ sys qid).hasController) = true; rw [hld, hhc]; rfl)]
          rw [getQ_setQ, if_pos ⟨rfl, by rw [len_updQ]; exact hlen⟩]
          simp [hrc, hld, hhc]
        · rw [if_neg (by rw [hupd]; show ¬ ((getQ sys qid).resultState.isLoading
              && (getQ sys qid).hasController) = true; simp [hhc])]
          rw [hupd]
          simp [h0, hhc]
      · rw [if_neg (by rw [hupd]; show ¬ ((getQ sys qid).resultState.isLoading
            && (getQ sys qid).hasController) = true; simp [hld])]
        rw [hupd]
        simp [h0, hld]
    · rw [if_neg (by rw [hupd]; exact hrc)]
      rw [hupd]
      simp [h0, hrc]
  · have hdef : getQ sys qid = default := getQ_oob sys qid (by omega)
    have hupd : getQ (updQ sys qid (fun q => { q with refCount := q.refCount - 1 })) qid
        = getQ sys qid := by
      rw [getQ_updQ, if_neg (by intro hcc; exact hlen hcc.2)]
    rw [if_pos (by rw [hupd, hdef]; decide)]
    rw [hardCancel]
    rw [if_neg (by rw [hupd, hdef]; decide)]
    rw [hupd, hdef]
    simp

end Equery

namespace Equery

theorem sig_aqRemoveRef_ne (S : Sys) (j i : Nat) (hne : i ≠ j) :
    (getQ (aqRemoveRef S j) i).sigAborted = (getQ S i).sigAborted := by
  rw [aqRemoveRef]
  split
  · rw [hardCancel]
    split
    · rw [getQ_setQ, if_neg (by intro hcc; exact hne hcc.1),
        getQ_updQ, if_neg (by intro hcc; exact hne hcc.1)]
    · rw [getQ_updQ, if_neg (by intro hcc; exact hne hcc.1)]
  · rw [getQ_updQ, if_neg (by intro hcc; exact hne hcc.1)]

theorem cancel_multi_noabort (sys : Sys) (o : Nat)
    (hc : (getObs sys o).canceled = false)
    (hrc : 2 ≤ (getQ sys (getObs sys o).qid).refCount) :
    (getQ (obsCancel sys o) (getObs sys o).qid).sigAborted
      = (getQ sys (getObs sys o).qid).sigAborted := by
  have hlen : (getObs sys o).qid < sys.queries.length := by
    by_contra hge
    rw [getQ_oob sys _ (by omega)] at hrc
    exact absurd hrc (by decide)
  rw [obsCancel]
  simp only [hc, Bool.false_eq_true, if_false]
  show (getQ (aqRemoveRef (setObs sys o { getObs sys o with canceled := true })
      (getObs sys o).qid) (getObs sys o).qid).sigAborted = _
  rw [aqRemoveRef]
  rw [if_neg (by
    rw [getQ_updQ, if_pos ⟨rfl, by exact hlen⟩]
    show ¬ ((getQ sys (getObs sys o).qid).refCount - 1 ≤ 0)
    omega)]
  rw [sig_updQ _ _ (fun q => { q with refCount := q.refCount - 1 }) (fun q => rfl)]
  rfl

theorem cancel_abort_conditions (sys : Sys) (o : Nat) (qid : Nat)
    (h0 : (getQ sys qid).sigAborted = false)
    (h1 : (getQ (obsCancel sys o) qid).sigAborted = true) :
    (getObs sys o).qid = qid ∧ (getObs sys o).canceled = false
      ∧ (getQ sys qid).refCount - 1 ≤ 0 ∧ (getQ sys qid).resultState.isLoading = true := by
  by_cases hc : (getObs sys o).canceled = true
  · rw [obsCancel_of_canceled sys o hc, h0] at h1
    exact absurd h1 (by simp)
  · have hcf : (getObs sys o).canceled = false := by
      cases hb : (getObs sys o).canceled
      · rfl
      · exact absurd hb hc
    rw [obsCancel] at h1
    simp only [hcf, Bool.false_eq_true, if_false] at h1
    have h2 : (getQ (aqRemoveRef (setObs sys o { getObs sys o with canceled := true })
        (getObs sys o).qid) qid).sigAborted = true := h1
    by_cases hqq : qid = (getObs sys o).qid
    · have hiff := removeRef_abort_iff
        (setObs sys o { getObs sys o with canceled := true }) (getObs sys o).qid
        (by show (getQ sys (getObs sys o).qid).sigAborted = false; rw [← hqq]; exact h0)
      rw [← hqq] at hiff
      have h3 := hiff.mp (by rw [hqq] at h2 ⊢; exact h2)
      exact ⟨hqq.symm, hcf, h3.1, h3.2.1⟩
    · rw [sig_aqRemoveRef_ne _ _ _ hqq] at h2
      have h4 : (getQ sys qid).sigAborted = true := h2
      rw [h0] at h4
      exact absurd h4 (by simp)

end Equery

namespace Equery

theorem sig_obsOnComplete (sys : Sys) (o u i : Nat) :
    (getQ (obsOnComplete sys o u) i).sigAborted = (getQ sys i).sigAborted := by
  rw [getQ_congr _ sys (queries_obsOnComplete sys o u) i]

theorem sig_obsOnError (sys : Sys) (o u i : Nat) :
    (getQ (obsOnError sys o u) i).sigAborted = (getQ sys i).sigAborted := by
  rw [getQ_congr _ sys (queries_obsOnError sys o u) i]

theorem only_abort_paths (sys : Sys) (a : Act) (qid : Nat)
    (h0 : (getQ sys qid).sigAborted = false)
    (h1 : (getQ (applyAct sys a) qid).sigAborted = true) :
    (∃ j, a = Act.timer j) ∨
    (∃ o, a = Act.cancel o ∧ (getObs sys o).qid = qid ∧ (getObs sys o).canceled = false
      ∧ (getQ sys qid).refCount - 1 ≤ 0 ∧ (getQ sys qid).resultState.isLoading = true) := by
  cases a with
  | useFC c ep g =>
      have h2 := sig_clientUseFetch sys c ep g qid h1
      rw [h0] at h2
      exact absurd h2 (by simp)
  | useFS ep g =>
      have h2 := sig_useFetchStandalone sys ep g qid h1
      rw [h0] at h2
      exact absurd h2 (by simp)
  | exec o =>
      have h2 := sig_aqExecuteTop sys (getObs sys o).qid qid h1
      rw [h0] at h2
      exact absurd h2 (by simp)
  | cancel o => exact Or.inr ⟨o, rfl, cancel_abort_conditions sys o qid h0 h1⟩
  | onComp o u =>
      have h2 : (getQ sys qid).sigAborted = true := by
        rw [← sig_obsOnComplete sys o u qid]; exact h1
      rw [h0] at h2
      exact absurd h2 (by simp)
  | onErr o u =>
      have h2 : (getQ sys qid).sigAborted = true := by
        rw [← sig_obsOnError sys o u qid]; exact h1
      rw [h0] at h2
      exact absurd h2 (by simp)
  | aqComp q u =>
      have h2 : (getQ sys qid).sigAborted = true := by
        rw [← sig_aqOnComplete sys q (.user u) qid]; exact h1
      rw [h0] at h2
      exact absurd h2 (by simp)
  | aqErr q u =>
      have h2 : (getQ sys qid).sigAborted = true := by
        rw [← sig_aqOnError sys q (.user u) qid]; exact h1
      rw [h0] at h2
      exact absurd h2 (by simp)
  | timer q => exact Or.inl ⟨q, rfl⟩
  | resolve q v =>
      have h2 : (getQ sys qid).sigAborted = true := by
        rw [← sig_settleResolve sys q v qid]; exact h1
      rw [h0] at h2
      exact absurd h2 (by simp)
  | reject q e =>
      have h2 : (getQ sys qid).sigAborted = true := by
        rw [← sig_settleReject sys q e qid]; exact h1
      rw [h0] at h2
      exact absurd h2 (by simp)
  | micro =>
      have h2 : (getQ sys qid).sigAborted = true := by
        rw [← sig_runMicro sys qid]; exact h1
      rw [h0] at h2
      exact absurd h2 (by simp)

end Equery

namespace Equery

/-- Invariant: a query that is loading has an allocated controller. -/
def LInv (sys : Sys) : Prop :=
  ∀ i, (getQ sys i).resultState.isLoading = true → (getQ sys i).hasController = true

theorem LInv_congr (s t : Sys) (h : s.queries = t.queries) (hl : LInv t) : LInv s := by
  intro i
  rw [getQ_congr s t h i]
  exact hl i

theorem LInv_setQ (sys : Sys) (j : Nat) (q : AQ)
    (hq : q.resultState.isLoading = true → q.hasController = true)
    (h : LInv sys) : LInv (setQ sys j q) := by
  intro i
  rw [getQ_setQ]
  split
  · exact hq
  · exact h i

theorem LInv_updQ (sys : Sys) (j : Nat) (f : AQ → AQ)
    (hf : ∀ q, ((f q).resultState.isLoading = true → (f q).hasController = true)
      ∨ ((f q).resultState.isLoading = q.resultState.isLoading
         ∧ (f q).hasController = q.hasController))
    (h : LInv sys) : LInv (updQ sys j f) := by
  intro i
  rw [getQ_updQ]
  split
  · rcases hf (getQ sys j) with hp | ⟨he1, he2⟩
    · exact hp
    · rw [he1, he2]
      exact h j
  · exact h i

theorem LInv_aqOnComplete (sys : Sys) (qid : Nat) (cb : Cb) (h : LInv sys) :
    LInv (aqOnComplete sys qid cb) := by
  rw [aqOnComplete]
  split
  · exact LInv_congr _ _ rfl
      (LInv_updQ sys qid (fun q => { q with completeCbs := q.completeCbs ++ [cb] })
        (fun _ => Or.inr ⟨rfl, rfl⟩) h)
  · exact LInv_updQ sys qid (fun q => { q with completeCbs := q.completeCbs ++ [cb] })
      (fun _ => Or.inr ⟨rfl, rfl⟩) h

theorem LInv_aqOnError (sys : Sys) (qid : Nat) (cb : Cb) (h : LInv sys) :
    LInv (aqOnError sys qid cb) := by
  rw [aqOnError]
  split
  · exact LInv_congr _ _ rfl
      (LInv_updQ sys qid (fun q => { q with errorCbs := q.errorCbs ++ [cb] })
        (fun _ => Or.inr ⟨rfl, rfl⟩) h)
  · exact LInv_updQ sys qid (fun q => { q with errorCbs := q.errorCbs ++ [cb] })
      (fun _ => Or.inr ⟨rfl, rfl⟩) h

theorem LInv_aqAddRef (sys : Sys) (qid : Nat) (h : LInv sys) : LInv (aqAddRef sys qid) :=
  LInv_updQ sys qid (fun q => { q with refCount := q.refCount + 1 })
    (fun _ => Or.inr ⟨rfl, rfl⟩) h

theorem LInv_hardCancel (sys : Sys) (qid : Nat) (h : LInv sys) : LInv (hardCancel sys qid) := by
  rw [hardCancel]
  split
  · exact LInv_setQ sys qid _ (fun hx => h qid hx) h
  · exact h

theorem LInv_aqRemoveRef (sys : Sys) (qid : Nat) (h : LInv sys) : LInv (aqRemoveRef sys qid) := by
  rw [aqRemoveRef]
  have h2 : LInv (updQ sys qid fun q => { q with refCount := q.refCount - 1 }) :=
    LInv_updQ sys qid _ (fun _ => Or.inr ⟨rfl, rfl⟩) h
  split
  · exact LInv_hardCancel _ _ h2
  · exact h2

theorem LInv_notifyComplete (sys : Sys) (qid : Nat) (h : LInv sys) : LInv (notifyComplete sys qid) := by
  rw [notifyComplete]
  exact LInv_updQ _ qid (fun q2 => { q2 with completeCbs := [], errorCbs := [] })
    (fun _ => Or.inr ⟨rfl, rfl⟩)
    (LInv_congr _ sys (queries_foldl_dc _ _ _) h)

theorem LInv_notifyError (sys : Sys) (qid : Nat) (e : JsVal) (h : LInv sys) :
    LInv (notifyError sys qid e) :=
  LInv_congr _ sys (queries_notifyError sys qid e) h

theorem LInv_settleCatch (sys : Sys) (qid : Nat) (e : JsVal) (h : LInv sys) :
    LInv (settleCatch sys qid e) := by
  rw [settleCatch_eq]
  split
  · exact LInv_notifyComplete _ _ (LInv_notifyError _ _ _
      (LInv_setQ sys qid _ (fun hx => absurd hx (by simp [catchQ1, catchRS1])) h))
  · split
    · exact LInv_notifyComplete _ _
        (LInv_setQ sys qid _ (fun hx => absurd hx (by simp [catchQ2, catchRS2])) h)
    · exact LInv_notifyComplete _ _ (LInv_notifyError _ _ _
        (LInv_setQ sys qid _ (fun hx => absurd hx (by simp [catchQ3, catchRS3])) h))

theorem LInv_settleReject (sys : Sys) (qid : Nat) (e : JsVal) (h : LInv sys) :
    LInv (settleReject sys qid e) := by
  rw [settleReject]
  split
  · exact LInv_settleCatch sys qid e h
  · exact h

theorem LInv_settleResolve (sys : Sys) (qid : Nat) (v : JsVal) (h : LInv sys) :
    LInv (settleResolve sys qid v) := by
  rw [settleResolve_eq]
  have hq0 : LInv (setQ sys qid (resolveQ0 (getQ sys qid))) :=
    LInv_setQ sys qid _ (fun hx => h qid hx) h
  split
  · split
    · split
      · exact LInv_settleCatch _ _ _ hq0
      · exact LInv_settleCatch _ _ _ hq0
    · exact LInv_notifyComplete _ _
        (LInv_setQ _ qid _ (fun hx => absurd hx (by simp [resolveQS, resolveRS])) hq0)
  · exact h

theorem LInv_aqExecute (sys : Sys) (qid : Nat) (h : LInv sys) : LInv (aqExecute sys qid) := by
  rw [aqExecute]
  split
  · exact h
  · exact LInv_congr _ _ rfl (LInv_setQ sys qid _ (fun _ => rfl) h)

theorem LInv_timerFire (sys : Sys) (qid : Nat) (h : LInv sys) : LInv (timerFire sys qid) := by
  rw [timerFire]
  split
  · exact LInv_setQ sys qid _ (fun hx => h qid hx) h
  · exact h

theorem LInv_append (sys : Sys) (q0 : AQ)
    (hq : q0.resultState.isLoading = true → q0.hasController = true)
    (h : LInv sys) : LInv { sys with queries := sys.queries ++ [q0] } := by
  intro i
  rw [getQ_eq]
  show ((sys.queries ++ [q0]).getD i default).resultState.isLoading = true →
    ((sys.queries ++ [q0]).getD i default).hasController = true
  by_cases hlt : i < sys.queries.length
  · rw [getD_append_lt _ _ _ _ hlt]
    exact h i
  · by_cases heq : i = sys.queries.length
    · subst heq
      rw [getD_snoc]
      exact hq
    · have hge : (sys.queries ++ [q0]).length ≤ i := by
        simp only [List.length_append, List.length_cons, List.length_nil]
        omega
      have hd : (sys.queries ++ [q0]).getD i default = default := by
        simp [List.getD, List.getElem?_eq_none hge]
      rw [hd]
      intro hx
      exact absurd hx (by decide)

theorem LInv_constructAQ (sys : Sys) (fe : EndpointR) (cfg : QueryConfig) (h : LInv sys) :
    LInv ((constructAQ sys fe cfg).1) := by
  rw [constructAQ]
  split
  · exact LInv_aqExecute _ _ (LInv_append sys _ (by intro hx; simp [initResult] at hx) h)
  · exact LInv_append sys _ (by intro hx; simp [initResult] at hx) h

theorem LInv_newObserver (sys : Sys) (qid : Nat) (h : LInv sys) : LInv ((newObserver sys qid).1) := by
  rw [newObserver]
  exact LInv_aqOnError _ _ _ (LInv_aqOnComplete _ _ _
    (LInv_aqAddRef _ _ (LInv_congr _ sys rfl h)))

theorem LInv_clientRegister (sys : Sys) (qid : Nat) (enabled : Bool) (ck : Option String)
    (h : LInv sys) : LInv (clientRegister sys qid enabled ck) := by
  cases ck with
  | none => exact h
  | some k =>
      simp only [clientRegister]
      split
      · exact LInv_aqOnComplete _ _ _ (LInv_congr _ sys rfl h)
      · exact LInv_updQ sys qid (fun q => { q with lazyKey := some k })
          (fun _ => Or.inr ⟨rfl, rfl⟩) h

theorem LInv_clientCreate (sys : Sys) (merged : QueryConfig) (fe : EndpointR)
    (ck : Option String) (h : LInv sys) : LInv ((clientCreate sys merged fe ck).1) := by
  rw [clientCreate]
  exact LInv_newObserver _ _ (LInv_clientRegister _ _ _ _ (LInv_constructAQ sys fe merged h))

theorem LInv_clientUseFetch (sys : Sys) (c : QueryConfig) (ep : EndpointU) (g : QueryConfig)
    (h : LInv sys) : LInv ((clientUseFetch sys c ep g).1) := by
  rw [clientUseFetch]
  split
  · split
    · exact LInv_newObserver _ _ h
    · exact LInv_clientCreate _ _ _ _ h
  · exact LInv_clientCreate _ _ _ _ h

theorem LInv_useFetchStandalone (sys : Sys) (ep : EndpointU) (g : QueryConfig) (h : LInv sys) :
    LInv ((useFetchStandalone sys ep g).1) := by
  rw [useFetchStandalone]
  exact LInv_newObserver _ _ (LInv_constructAQ _ _ _ h)

theorem LInv_aqExecuteTop (sys : Sys) (qid : Nat) (h : LInv sys) : LInv (aqExecuteTop sys qid) := by
  rw [aqExecuteTop]
  split
  · exact LInv_aqExecute _ _ h
  · split
    · exact LInv_aqExecute _ _ h
    · exact LInv_aqExecute _ _ (LInv_aqOnComplete _ _ _ (LInv_congr _ sys rfl h))

theorem LInv_obsCancel (sys : Sys) (o : Nat) (h : LInv sys) : LInv (obsCancel sys o) := by
  rw [obsCancel]
  split
  · exact h
  · exact LInv_congr _ _ rfl
      (LInv_aqRemoveRef _ _ (LInv_congr _ sys rfl h))

theorem LInv_runMicro (sys : Sys) (h : LInv sys) : LInv (runMicro sys) :=
  LInv_congr _ sys (queries_runMicro sys) h

theorem LInv_step (sys : Sys) (a : Act) (h : LInv sys) : LInv (applyAct sys a) := by
  cases a with
  | useFC c ep g => exact LInv_clientUseFetch sys c ep g h
  | useFS ep g => exact LInv_useFetchStandalone sys ep g h
  | exec o => exact LInv_aqExecuteTop sys _ h
  | cancel o => exact LInv_obsCancel sys o h
  | onComp o u => exact LInv_congr _ sys (queries_obsOnComplete sys o u) h
  | onErr o u => exact LInv_congr _ sys (queries_obsOnError sys o u) h
  | aqComp q u => exact LInv_aqOnComplete sys q _ h
  | aqErr q u => exact LInv_aqOnError sys q _ h
  | timer q => exact LInv_timerFire sys q h
  | resolve q v => exact LInv_settleResolve sys q v h
  | reject q e => exact LInv_settleReject sys q e h
  | micro => exact LInv_runMicro sys h

theorem LInv_reachable (l : List Act) : LInv (applyActs sysInit l) := by
  induction l using List.reverseRecOn with
  | nil =>
      intro i hx
      simp only [applyActs, List.foldl_nil] at hx ⊢
      rw [getQ_oob sysInit i (by simp [sysInit])] at hx
      exact absurd hx (by decide)
  | append_singleton t a ih =>
      show LInv (List.foldl applyAct sysInit (t ++ [a]))
      rw [List.foldl_append, List.foldl_cons, List.foldl_nil]
      exact LInv_step _ a ih

end Equery

namespace Equery

/-- A standalone query with a 10ms timeout whose timer fires: the
token is triggered with no observer cancellation at all and refCount
still 1. -/
def c4T : Sys := timerFire (useFetchStandalone sysInit (.fn 0) { timeout := some 10 }).1 0

/-- Counterexample to claim C4: the timeout timer also aborts in-flight
work, so the removeRef path is not the only one: here the token goes
from untriggered to triggered while refCount stays 1 and removeRef was
never called. -/
theorem claim_C4_cex :
    (getQ (useFetchStandalone sysInit (.fn 0) { timeout := some 10 }).1 0).sigAborted = false ∧
    (getQ c4T 0).sigAborted = true ∧
    (getQ c4T 0).refCount = 1 := by decide

/-- Claim C4 as amended: a cancel by one of K greater or equal 2 live
observers never changes the token; removeRef triggers the token
exactly when it drives refCount to at most 0 while the operation is
still loading with an allocated controller (and while loading a
controller is always allocated, by the reachability invariant); and
across every operation of the model, the only steps that can take the
token from untriggered to triggered are the timeout timer and a cancel
whose removeRef drives refCount to at most 0 while loading. -/
theorem claim_C4 :
    (∀ sys o, (getObs sys o).canceled = false →
      2 ≤ (getQ sys (getObs sys o).qid).refCount →
      (getQ (obsCancel sys o) (getObs sys o).qid).sigAborted
        = (getQ sys (getObs sys o).qid).sigAborted) ∧
    (∀ sys qid, (getQ sys qid).sigAborted = false →
      ((getQ (aqRemoveRef sys qid) qid).sigAborted = true ↔
        ((getQ sys qid).refCount - 1 ≤ 0 ∧ (getQ sys qid).resultState.isLoading = true
          ∧ (getQ sys qid).hasController = true))) ∧
    (∀ sys a qid, (getQ sys qid).sigAborted = false →
      (getQ (applyAct sys a) qid).sigAborted = true →
      (∃ j, a = Act.timer j) ∨
      (∃ o, a = Act.cancel o ∧ (getObs sys o).qid = qid ∧ (getObs sys o).canceled = false
        ∧ (getQ sys qid).refCount - 1 ≤ 0 ∧ (getQ sys qid).resultState.isLoading = true)) ∧
    (∀ l qid, (getQ (applyActs sysInit l) qid).resultState.isLoading = true →
      (getQ (applyActs sysInit l) qid).hasController = true) :=
  ⟨cancel_multi_noabort, removeRef_abort_iff, only_abort_paths, fun l => LInv_reachable l⟩

/-- Witness for claim C4: each quantified part applied at a concrete
state: two sharing observers for the no-abort part, a loading
single-reference query for the iff and the only-path part, and a
one-step trace for the invariant. -/
theorem claim_C4_witness :
    ((getQ (obsCancel c9Base 0) (getObs c9Base 0).qid).sigAborted
       = (getQ c9Base 0 ).sigAborted) ∧
    ((getQ (aqRemoveRef c5RunLit 0) 0).sigAborted = true ↔
      ((getQ c5RunLit 0).refCount - 1 ≤ 0 ∧ (getQ c5RunLit 0).resultState.isLoading = true
        ∧ (getQ c5RunLit 0).hasController = true)) ∧
    ((∃ j, Act.cancel 0 = Act.timer j) ∨
      (∃ o, Act.cancel 0 = Act.cancel o ∧ (getObs c3W0 o).qid = 0
        ∧ (getObs c3W0 o).canceled = false
        ∧ (getQ c3W0 0).refCount - 1 ≤ 0 ∧ (getQ c3W0 0).resultState.isLoading = true)) ∧
    ((getQ (applyActs sysInit [Act.useFS (.fn 0) {}]) 0).hasController = true) :=
  ⟨claim_C4.1 c9Base 0 (by decide) (by decide),
   claim_C4.2.1 c5RunLit 0 (by decide),
   claim_C4.2.2.1 c3W0 (Act.cancel 0) 0 (by decide) (by decide),
   claim_C4.2.2.2 [Act.useFS (.fn 0) {}] 0 (by decide)⟩

end Equery
